import Mathlib

/-!
Verification of the rmpc rendering core (`src/ui/panes/mod.rs`): the
property-resolution engine (`Property::as_string`, `as_span`,
`Song::as_line_ellipsized`, `Song::format`, `Song::cmp_by_prop`,
`Song::matches`, `StringExt::ellipsize`), the layout partition engine
(`SizedPaneOrSplit::for_each_pane_custom_data`) and the pane registry
(`PaneContainer::get_mut`, the `pane_call` dispatch).

Strings are embedded as lists of characters so that character counts and
case folding are explicit.  External collaborators (ratatui styles and
layout, the standard library's path functions, and helpers of this
repository that live outside `src/`) are modelled; every such definition
carries a doc comment saying so.
-/

/-- Strings from the source are embedded as lists of characters, so that
`chars().count()`-style reasoning is direct. -/
abbrev Str := List Char

/-- Convenience conversion from a Lean string literal to the embedding. -/
def str (s : String) : Str := s.data

/-- Model of Rust `str::to_lowercase` (Unicode lowercasing); faithful on the
ASCII data used throughout the source and in every concrete input below. -/
def lower (s : Str) : Str := s.map Char.toLower

/-- Model of Rust `str::contains(&str)`: substring containment.  `haystack`
and `needle` are as in `haystack.contains(needle)`. -/
def containsStr (haystack needle : Str) : Bool :=
  match haystack with
  | [] => needle.isEmpty
  | _ :: rest => needle.isPrefixOf haystack || containsStr rest needle

/-- Case-insensitive containment, the composite used by `Song::matches`:
`value.to_lowercase().contains(&filter.to_lowercase())`. -/
def containsCI (value filter : Str) : Bool := containsStr (lower value) (lower filter)

/-- Three-way comparison on `Nat`, written with explicit tests so that proofs
can split on them. -/
def cmpN (a b : Nat) : Ordering := if a < b then .lt else if a = b then .eq else .gt

/-- Three-way comparison on `Int` (Rust `i32::cmp`). -/
def cmpZ (a b : Int) : Ordering := if a < b then .lt else if a = b then .eq else .gt

/-- Comparison of single characters by code point. -/
def charCmp (a b : Char) : Ordering := cmpN a.toNat b.toNat

/-- Lexicographic comparison of character lists, the order underlying string
comparison. -/
def lexCmp : Str → Str → Ordering
  | [], [] => .eq
  | [], _ :: _ => .lt
  | _ :: _, [] => .gt
  | a :: xs, b :: ys =>
    match charCmp a b with
    | .eq => lexCmp xs ys
    | o => o

/-- Model of `UniCase::new(a).cmp(&UniCase::new(b))` (the `unicase` crate):
case-folded lexicographic comparison; folding is modelled by `lower`,
faithful on ASCII. -/
def uniCaseCmp (a b : Str) : Ordering := lexCmp (lower a) (lower b)

/-- Decimal digit character for a value below ten. -/
def digitChar (n : Nat) : Char := Char.ofNat ('0'.toNat + n)

/-- Helper for decimal rendering: peels digits from the low end; the
first argument is fuel bounding the digit count, so the recursion is
structural. -/
def natDigitsAux : Nat → Nat → Str → Str
  | 0, _, acc => acc
  | fuel + 1, n, acc =>
    if n = 0 then acc else natDigitsAux fuel (n / 10) (digitChar (n % 10) :: acc)

/-- Decimal rendering of a natural number (Rust `u32`/`usize` `Display`). -/
def natToString (n : Nat) : Str := if n = 0 then ['0'] else natDigitsAux n n []

/-- Model of `format!("{v:0>2}")`: decimal rendering left-padded with zeros
to width two, as used by `Song::format` for the track number. -/
def pad2 (n : Nat) : Str :=
  let s := natToString n
  List.replicate (2 - s.length) '0' ++ s

/-- Value of a decimal digit character, `none` on any other character. -/
def digitVal (c : Char) : Option Nat :=
  if '0' ≤ c ∧ c ≤ '9' then some (c.toNat - '0'.toNat) else none

/-- Parses a nonempty all-digit string to its value, `none` otherwise. -/
def parseDigits : Str → Option Nat
  | [] => none
  | cs => cs.foldl (fun acc c => acc.bind (fun n => (digitVal c).map (fun d => n * 10 + d)))
      (some 0)

/-- Model of Rust `str::parse::<u32>()`: optional `+` sign, then one or more
decimal digits, value below `2^32`. -/
def parseU32 (s : Str) : Option Nat :=
  let body := match s with
    | '+' :: rest => rest
    | _ => s
  (parseDigits body).bind (fun n => if n < 2 ^ 32 then some n else none)

/-- Model of Rust `str::parse::<i32>()`: optional sign, then one or more
decimal digits, value within the `i32` range. -/
def parseI32 (s : Str) : Option Int :=
  match s with
  | '-' :: rest =>
    (parseDigits rest).bind (fun n =>
      if (n : Int) ≤ 2 ^ 31 then some (-(n : Int)) else none)
  | '+' :: rest =>
    (parseDigits rest).bind (fun n =>
      if (n : Int) < 2 ^ 31 then some (n : Int) else none)
  | _ =>
    (parseDigits s).bind (fun n =>
      if (n : Int) < 2 ^ 31 then some (n : Int) else none)

/-- An ordered, nonempty list of values of one metadata tag (tags may
repeat, so a tag maps to several values; the source's accessor type exposes
`join`, `last` and iteration and is never empty). -/
structure TagValue where
  first : Str
  rest : List Str
deriving DecidableEq

/-- All values of the tag in source order. -/
def TagValue.toList (v : TagValue) : List Str := v.first :: v.rest

/-- Model of the tag value accessor's `join(separator)`. -/
def TagValue.join (v : TagValue) (sep : Str) : Str := List.intercalate sep v.toList

/-- Model of the tag value accessor's `last()` (total: the list is
nonempty). -/
def TagValue.last (v : TagValue) : Str :=
  match v.rest.getLast? with
  | some s => s
  | none => v.first

/-- Modelled from the spec: `TagResolutionStrategy` lives in the
configuration module (not under `src/`); it controls how a multi-valued tag
collapses to one string — join all values with a separator, or select one
occurrence (first or last). -/
inductive TagResolutionStrategy where
  | All
  | First
  | Last
deriving DecidableEq

/-- Modelled from the spec: `TagResolutionStrategy::resolve(values,
separator)` collapses the tag's values per the strategy. -/
def TagResolutionStrategy.resolve : TagResolutionStrategy → TagValue → Str → Str
  | .All, v, sep => v.join sep
  | .First, v, _ => v.first
  | .Last, v, _ => v.last

/-- The song entity (`mpd::commands::Song`): file path, optional duration
(embedded in milliseconds), multi-valued metadata map, optional sticker
map.  Maps are embedded as functions to options; the timestamps play no
role in any claim and are omitted. -/
structure Song where
  file : Str
  duration : Option Nat
  metadata : Str → Option TagValue
  stickers : Option (Str → Option Str)

/-- Model of `std::path::Path::file_stem` composed with `to_string_lossy`
as used by `Song::file_name`: the final `/`-separated component without its
extension; `none` for an empty final component or `..`. -/
def pathFileStem (file : Str) : Option Str :=
  let comp := ((List.splitOn '/' file).getLast?).getD []
  if comp = [] ∨ comp = str ".." then none
  else
    match List.splitOn '.' comp.reverse with
    | [] => some comp
    | [_] => some comp
    | _ :: restRev =>
      let stem := (List.intercalate ['.'] restRev).reverse
      if stem = [] then some comp else some stem

/-- Model of `std::path::Path::extension` composed with `to_string_lossy`
as used by `Song::file_ext`: the part of the final component after its last
dot, when that dot is not the leading character. -/
def pathExtension (file : Str) : Option Str :=
  let comp := ((List.splitOn '/' file).getLast?).getD []
  if comp = [] ∨ comp = str ".." then none
  else
    match List.splitOn '.' comp.reverse with
    | [] => none
    | [_] => none
    | ext :: restRev =>
      if (List.intercalate ['.'] restRev).reverse = [] then none else some ext.reverse

/-- `Song::file_name`. -/
def Song.file_name (s : Song) : Option Str := pathFileStem s.file

/-- `Song::file_ext`. -/
def Song.file_ext (s : Song) : Option Str := pathExtension s.file

/-- Modelled from the spec: the duration `Display` helper
(`shared::ext::duration::DurationExt`, not under `src/`) renders a duration
as minutes and zero-padded seconds (the source's own test fixtures show
123 s rendered as `2:03`). -/
def durationDisplay (millis : Nat) : Str :=
  natToString (millis / 1000 / 60) ++ [':'] ++ pad2 (millis / 1000 % 60)

/-- The `SongProperty` kinds (configuration enum); names follow the
source. -/
inductive SongProperty where
  | Filename
  | FileExtension
  | File
  | Title
  | Artist
  | Album
  | Duration
  | Other (name : Str)
  | Disc
  | Track
deriving DecidableEq

/-- `Song::format`: resolves one song-derived property to text.  Title,
artist, album and arbitrary tags collapse their values via the supplied
strategy; duration renders via the duration display; disc takes the last
value verbatim; track takes the last value and zero-pads it when it parses
as a `u32`, keeping the raw text otherwise; every absent field yields
`none`. -/
def Song.format (s : Song) (property : SongProperty) (tag_separator : Str)
    (strategy : TagResolutionStrategy) : Option Str :=
  match property with
  | .Filename => s.file_name
  | .FileExtension => s.file_ext
  | .File => some s.file
  | .Title => (s.metadata (str "title")).map (fun v => strategy.resolve v tag_separator)
  | .Artist => (s.metadata (str "artist")).map (fun v => strategy.resolve v tag_separator)
  | .Album => (s.metadata (str "album")).map (fun v => strategy.resolve v tag_separator)
  | .Duration => s.duration.map (fun d => durationDisplay d)
  | .Other name => (s.metadata name).map (fun v => strategy.resolve v tag_separator)
  | .Disc => (s.metadata (str "disc")).map (fun v => v.last)
  | .Track => (s.metadata (str "track")).map (fun v =>
      match parseU32 v.last with
      | some n => pad2 n
      | none => v.last)

/-- The repeated present/absent comparison block of `Song::cmp_by_prop`:
both present compares by `cmp`; the side lacking the value sorts strictly
greater (the source's `(_, Some(_)) => Greater` / `(Some(_), _) => Less`
arms); two absent values compare equal. -/
def optCmp (cmp : α → α → Ordering) : Option α → Option α → Ordering
  | some x, some y => cmp x y
  | none, some _ => .gt
  | some _, none => .lt
  | none, none => .eq

/-- The inner comparison of the `Track` and `Disc` arms of
`Song::cmp_by_prop`: both sides parse as `i32` compares numerically,
otherwise case-insensitive text comparison. -/
def numericTextCmp (x y : Str) : Ordering :=
  match parseI32 x, parseI32 y with
  | some i, some j => cmpZ i j
  | _, _ => uniCaseCmp x y

/-- `Song::cmp_by_prop`: pairwise comparison of two songs by one property.
Every arm of the source's match is the `optCmp` block over the arm's
extraction: `file_name`/`file_ext` for the path kinds, the tag's values
joined with the empty separator for tag kinds (with the numeric-then-text
comparison for `Track` and `Disc`), the raw path for `File`, and
milliseconds for `Duration`. -/
def Song.cmp_by_prop (s other : Song) (property : SongProperty) : Ordering :=
  match property with
  | .Filename => optCmp uniCaseCmp s.file_name other.file_name
  | .FileExtension => optCmp uniCaseCmp s.file_ext other.file_ext
  | .File => uniCaseCmp s.file other.file
  | .Title => optCmp uniCaseCmp
      ((s.metadata (str "title")).map (fun v => v.join []))
      ((other.metadata (str "title")).map (fun v => v.join []))
  | .Artist => optCmp uniCaseCmp
      ((s.metadata (str "artist")).map (fun v => v.join []))
      ((other.metadata (str "artist")).map (fun v => v.join []))
  | .Album => optCmp uniCaseCmp
      ((s.metadata (str "album")).map (fun v => v.join []))
      ((other.metadata (str "album")).map (fun v => v.join []))
  | .Track => optCmp numericTextCmp
      ((s.metadata (str "track")).map (fun v => v.join []))
      ((other.metadata (str "track")).map (fun v => v.join []))
  | .Disc => optCmp numericTextCmp
      ((s.metadata (str "disc")).map (fun v => v.join []))
      ((other.metadata (str "disc")).map (fun v => v.join []))
  | .Other prop_name => optCmp uniCaseCmp
      ((s.metadata prop_name).map (fun v => v.join []))
      ((other.metadata prop_name).map (fun v => v.join []))
  | .Duration => optCmp cmpN s.duration other.duration

/-- The string sort key `Song::cmp_by_prop` extracts for a property (all
kinds except `Duration`, whose key is numeric). -/
def Song.sortKey (s : Song) : SongProperty → Option Str
  | .Filename => s.file_name
  | .FileExtension => s.file_ext
  | .File => some s.file
  | .Title => (s.metadata (str "title")).map (fun v => v.join [])
  | .Artist => (s.metadata (str "artist")).map (fun v => v.join [])
  | .Album => (s.metadata (str "album")).map (fun v => v.join [])
  | .Track => (s.metadata (str "track")).map (fun v => v.join [])
  | .Disc => (s.metadata (str "disc")).map (fun v => v.join [])
  | .Other prop_name => (s.metadata prop_name).map (fun v => v.join [])
  | .Duration => none

/-- The base comparison `Song::cmp_by_prop` applies to two present string
keys of a property. -/
def SongProperty.baseCmp : SongProperty → Str → Str → Ordering
  | .Track => numericTextCmp
  | .Disc => numericTextCmp
  | _ => uniCaseCmp

/-- Whether the song has the field the property reads. -/
def Song.hasProp (s : Song) : SongProperty → Bool
  | .Duration => s.duration.isSome
  | p => (s.sortKey p).isSome

/-- The symbol set from the theme configuration; only the ellipsis marker
is consulted by the code under verification. -/
structure SymbolsConfig where
  ellipsis : Str
deriving DecidableEq

/-- `StringExt::ellipsize` (identical for `&str`, `String` and `Cow`):
text longer than `max_len` characters is cut to `max_len` minus the
marker's character count (`Nat` subtraction is Rust's `saturating_sub`)
with the marker appended; otherwise the text is returned unchanged. -/
def ellipsize (s : Str) (max_len : Nat) (symbols : SymbolsConfig) : Str :=
  if s.length > max_len then
    s.take (max_len - symbols.ellipsis.length) ++ symbols.ellipsis
  else
    s

/-- Model of `ratatui::style::Style` following the spec's style-patching
design note: a record of independently optional attributes; two attributes
suffice to model the patching semantics. -/
structure Style where
  fg : Option Nat := none
  bg : Option Nat := none
deriving DecidableEq

instance : Inhabited Style := ⟨{}⟩

/-- Model of `Style::patch`: attribute-by-attribute merge where the other
style's explicitly set value wins and an unset attribute inherits this
style's value. -/
def Style.patch (s other : Style) : Style :=
  { fg := other.fg.orElse (fun _ => s.fg), bg := other.bg.orElse (fun _ => s.bg) }

/-- Model of `ratatui::text::Span`: a content fragment with a style. -/
structure Span where
  content : Str
  style : Style := {}
deriving DecidableEq

/-- Model of `ratatui::text::Line`: a sequence of spans plus a line-level
style. -/
structure Line where
  spans : List Span := []
  style : Style := {}
deriving DecidableEq

/-- Model of `Line::styled`: one raw span carrying the content, with the
style on the line. -/
def Line.styled (content : Str) (st : Style) : Line :=
  { spans := [{ content := content }], style := st }

mutual

/-- The recursive format specification
(`config::theme::properties::Property` with
`PropertyKindOrText`): a literal, a sticker reference, a property
reference, or an ordered group, each node carrying an optional style and
an optional default used on resolution failure. -/
inductive Property (K : Type) where
  | mk (kind : PropertyKindOrText K) (style : Option Style) (dflt : Option (Property K))

/-- The kind of a `Property` node. -/
inductive PropertyKindOrText (K : Type) where
  | Text (value : Str)
  | Sticker (key : Str)
  | Property (p : K)
  | Group (g : List (Property K))

end

/-- The node's kind. -/
def Property.kind : Property K → PropertyKindOrText K
  | .mk kind _ _ => kind

/-- The node's optional style. -/
def Property.style : Property K → Option Style
  | .mk _ style _ => style

/-- The node's optional default, consulted on resolution failure. -/
def Property.dflt : Property K → Option (Property K)
  | .mk _ _ d => d

mutual

/-- `Property::<SongProperty>::as_string`: plain-text resolution.  `Text`
always resolves; `Sticker` reads the sticker map through
`song.map(..)` (so a present song with a missing sticker yields `none`
without consulting the default, exactly as the source's `if let
Some(sticker) = song.map(..)` does); `Prop` resolves via `Song::format`
falling back to the node's default; `Group` is all-or-nothing over its
members with the group's own default on failure. -/
def Property.as_string :
    Property SongProperty → Option Song → Str → TagResolutionStrategy → Option Str
  | .mk kind _ dflt, song, tag_separator, strategy =>
    match kind with
    | .Text value => some value
    | .Sticker key =>
      match song.map (fun s => s.stickers.bind (fun stickers => stickers key)) with
      | some sticker => sticker
      | none =>
        match dflt with
        | some p => p.as_string song tag_separator strategy
        | none => none
    | .Property property =>
      match song with
      | some s =>
        match s.format property tag_separator strategy with
        | some v => some v
        | none =>
          match dflt with
          | some p => p.as_string (some s) tag_separator strategy
          | none => none
      | none =>
        match dflt with
        | some p => p.as_string none tag_separator strategy
        | none => none
    | .Group group =>
      match Property.group_as_string group song tag_separator strategy with
      | some buf => some buf
      | none =>
        match dflt with
        | some d => d.as_string song tag_separator strategy
        | none => none
termination_by p _ _ _ => sizeOf p

/-- The `for format in group` loop of the `Group` arm of `as_string`:
concatenates every member's resolution, failing the moment one member
fails (the partly built buffer is discarded). -/
def Property.group_as_string :
    List (Property SongProperty) → Option Song → Str → TagResolutionStrategy → Option Str
  | [], _, _, _ => some []
  | format :: rest, song, tag_separator, strategy =>
    match format.as_string song tag_separator strategy with
    | some res =>
      match Property.group_as_string rest song tag_separator strategy with
      | some buf => some (res ++ buf)
      | none => none
    | none => none
termination_by g _ _ _ => sizeOf g

end

/-- `Song::matches`: iterates over the supplied format specs; per spec the
per-kind test is computed (`Text` by direct containment, `Sticker` by
sticker containment falling back to matching the spec's default, `Prop`
by `Song::format` with the empty separator and the `All` strategy falling
back to matching the default, `Group` by containment on the whole node's
`as_string` resolution) and the first spec whose test is `Some(true)`
returns `true`; `false` once the list is exhausted. -/
def Song.matches (s : Song) : List (Property SongProperty) → Str → Bool
  | [], _ => false
  | .mk kind style dflt :: rest, filter =>
    let match_found : Option Bool :=
      match kind with
      | .Text value => some (containsCI value filter)
      | .Sticker key =>
        match s.stickers.bind
            (fun stickers => (stickers key).map (fun value => containsCI value filter)) with
        | some b => some b
        | none =>
          match dflt with
          | some f => some (s.matches [f] filter)
          | none => none
      | .Property property =>
        match s.format property [] .All with
        | some p => some (containsCI p filter)
        | none =>
          match dflt with
          | some f => some (s.matches [f] filter)
          | none => none
      | .Group _ =>
        ((Property.mk kind style dflt).as_string (some s) [] .All).map
          (fun v => containsCI v filter)
    match match_found with
    | some true => true
    | _ => s.matches rest filter
termination_by formats _ => sizeOf formats

mutual

/-- `Song::as_line_ellipsized`: styled single-line resolution of a song
format spec, ellipsizing each resolved fragment.  The `Group` arm
collects every member's spans (each member span's own style patched onto
the member line's style); if any member fails the group's own default is
resolved instead. -/
def Song.as_line_ellipsized (s : Song) :
    Property SongProperty → Nat → SymbolsConfig → Str → TagResolutionStrategy → Option Line
  | .mk kind style0 dflt, max_len, symbols, tag_separator, strategy =>
    let style := style0.getD {}
    match kind with
    | .Text value => some (Line.styled (ellipsize value max_len symbols) style)
    | .Sticker key =>
      match s.stickers.bind (fun stickers => stickers key) with
      | some sticker => some (Line.styled (ellipsize sticker max_len symbols) style)
      | none =>
        match dflt with
        | some format => s.as_line_ellipsized format max_len symbols tag_separator strategy
        | none => none
    | .Property property =>
      match s.format property tag_separator strategy with
      | some v => some (Line.styled (ellipsize v max_len symbols) style)
      | none =>
        match dflt with
        | some format => s.as_line_ellipsized format max_len symbols tag_separator strategy
        | none => none
    | .Group group =>
      match s.group_line_spans group max_len symbols tag_separator strategy with
      | some spans => some { spans := spans, style := style }
      | none =>
        match dflt with
        | some format => s.as_line_ellipsized format max_len symbols tag_separator strategy
        | none => none
termination_by p _ _ _ _ => sizeOf p

/-- The `for grformat in group` loop of the `Group` arm of
`as_line_ellipsized`: every member's spans, the member line's style
patched under each span's own style; fails the moment a member fails. -/
def Song.group_line_spans (s : Song) :
    List (Property SongProperty) → Nat → SymbolsConfig → Str → TagResolutionStrategy →
      Option (List Span)
  | [], _, _, _, _ => some []
  | grformat :: rest, max_len, symbols, tag_separator, strategy =>
    match s.as_line_ellipsized grformat max_len symbols tag_separator strategy with
    | some res =>
      match s.group_line_spans rest max_len symbols tag_separator strategy with
      | some buf =>
        some ((res.spans.map
          (fun span => { content := span.content, style := res.style.patch span.style })) ++ buf)
      | none => none
    | none => none
termination_by g _ _ _ _ => sizeOf g

end

/-- Playback state (`mpd::commands::State`). -/
inductive State where
  | Play
  | Stop
  | Pause
deriving DecidableEq

/-- Tri-state toggle (`mpd::commands::status::OnOffOneshot`). -/
inductive OnOffOneshot where
  | On
  | Off
  | Oneshot
deriving DecidableEq

/-- The read-only status snapshot (`mpd::commands::Status`), with the
fields `as_span` consults.  The source field `repeat` is a reserved word
here, hence `repeatFlag`; durations are embedded in milliseconds; `volume`
is the `Bound` volume's inner value. -/
structure Status where
  state : State
  volume : Nat
  repeatFlag : Bool
  random : Bool
  consume : OnOffOneshot
  single : OnOffOneshot
  bitrate : Option Nat
  xfade : Option Nat
  elapsed : Nat
  duration : Nat

/-- The read-only per-frame context (`context::AppContext`), with the
fields `as_span` consults.  `current_song_idx` models
`find_current_song_in_queue` (code outside `src/`), per the spec: the
index of the currently playing queue entry, `none` if nothing is
playing. -/
structure AppContext where
  status : Status
  queue : List Song
  active_tab : Str
  db_update_start : Option Nat
  current_song_idx : Option Nat

/-- The status-derived property kinds
(`config::theme::properties::StatusProperty`); labels and optional
per-state style overrides are carried by the configuration node. -/
inductive StatusProperty where
  | State (playing_label paused_label stopped_label : Str)
      (playing_style paused_style stopped_style : Option Style)
  | Duration
  | Elapsed
  | Volume
  | Repeat (on_label off_label : Str) (on_style off_style : Option Style)
  | Random (on_label off_label : Str) (on_style off_style : Option Style)
  | Consume (on_label off_label oneshot_label : Str)
      (on_style off_style oneshot_style : Option Style)
  | Single (on_label off_label oneshot_label : Str)
      (on_style off_style oneshot_style : Option Style)
  | Bitrate
  | Crossfade
  | QueueLength (thousands_separator : Str)
  | QueueTimeTotal (separator : Str)
  | QueueTimeRemaining (separator : Str)
  | ActiveTab

/-- The widget-derived property kinds
(`config::theme::properties::WidgetProperty`). -/
inductive WidgetProperty where
  | Volume
  | States (active_style separator_style : Style)
  | ScanStatus

/-- The full property kind (`config::theme::properties::PropertyKind`):
song-, status- or widget-derived. -/
inductive PropertyKind where
  | Song (p : SongProperty)
  | Status (p : StatusProperty)
  | Widget (p : WidgetProperty)

/-- Reversed-digit grouping helper for the thousands separator. -/
def chunks3 : Str → List Str
  | [] => []
  | c :: rest => ((c :: rest).take 3) :: chunks3 ((c :: rest).drop 3)
termination_by l => l.length
decreasing_by simp [List.length_drop]; omega

/-- Modelled from the spec: `with_thousands_separator`
(`shared::ext::num::NumExt`, not under `src/`) renders a count with the
configured separator between three-digit groups. -/
def withThousandsSeparator (n : Nat) (sep : Str) : Str :=
  List.intercalate sep (((chunks3 (natToString n).reverse).map List.reverse).reverse)

/-- Modelled from the spec: `format_to_duration`
(`shared::ext::duration::DurationExt`, not under `src/`) renders an
aggregate play time with the configured separator; the exact text is
irrelevant to every claim, modelled as whole seconds followed by the
separator. -/
def formatToDuration (millis : Nat) (sep : Str) : Str :=
  natToString (millis / 1000) ++ sep

/-- Modelled from the spec: `Volume::get_str` (the volume gauge widget,
not under `src/`) renders a textual gauge for the volume value; modelled
as the decimal value. -/
def volumeGetStr (volume : Nat) : Str := natToString volume

/-- Modelled from the spec: `ScanStatus::get_str` (the scan-status
widget, not under `src/`) renders an indicator while a database scan is
in progress; the glyph itself is irrelevant to every claim. -/
def scanStatusGetStr (_update_start : Nat) : Option Str := some ['~']

mutual

/-- `Property::<PropertyKind>::as_span`: styled resolution against a song
and the context snapshot, returning one span or a list of spans
(`Either`).  Leaf failures (missing sticker, missing song field, unset
bitrate or crossfade) fall back to the node's default; the `States`
widget emits four independently styled labels joined by a styled
separator; the `Group` arm is all-or-nothing and yields `none` the moment
a member fails, without consulting any default. -/
def Property.as_span :
    Property PropertyKind → Option Song → AppContext → Str → TagResolutionStrategy →
      Option (Sum Span (List Span))
  | .mk kind style0 dflt, song, context, tag_separator, strategy =>
    let style := style0.getD {}
    let status := context.status
    match kind with
    | .Text value => some (.inl { content := value, style := style })
    | .Sticker key =>
      match song.bind (fun s => s.stickers.bind (fun stickers => stickers key)) with
      | some sticker => some (.inl { content := sticker, style := style })
      | none =>
        match dflt with
        | some p => p.as_span song context tag_separator strategy
        | none => none
    | .Property (.Song property) =>
      match song with
      | some s =>
        match s.format property tag_separator strategy with
        | some v => some (.inl { content := v, style := style })
        | none =>
          match dflt with
          | some p => p.as_span (some s) context tag_separator strategy
          | none => none
      | none =>
        match dflt with
        | some p => p.as_span none context tag_separator strategy
        | none => none
    | .Property (.Status sp) =>
      match sp with
      | .State playing_label paused_label stopped_label
          playing_style paused_style stopped_style =>
        some (.inl
          { content :=
              match status.state with
              | .Play => playing_label
              | .Stop => stopped_label
              | .Pause => paused_label
            style :=
              (match status.state with
              | .Play => playing_style
              | .Stop => stopped_style
              | .Pause => paused_style).getD style })
      | .Duration => some (.inl { content := durationDisplay status.duration, style := style })
      | .Elapsed => some (.inl { content := durationDisplay status.elapsed, style := style })
      | .Volume => some (.inl { content := natToString status.volume, style := style })
      | .Repeat on_label off_label on_style off_style =>
        some (.inl
          { content := if status.repeatFlag then on_label else off_label
            style := (if status.repeatFlag then on_style else off_style).getD style })
      | .Random on_label off_label on_style off_style =>
        some (.inl
          { content := if status.random then on_label else off_label
            style := (if status.random then on_style else off_style).getD style })
      | .Consume on_label off_label oneshot_label on_style off_style oneshot_style =>
        some (.inl
          { content :=
              match status.consume with
              | .On => on_label
              | .Off => off_label
              | .Oneshot => oneshot_label
            style :=
              (match status.consume with
              | .On => on_style
              | .Off => off_style
              | .Oneshot => oneshot_style).getD style })
      | .Single on_label off_label oneshot_label on_style off_style oneshot_style =>
        some (.inl
          { content :=
              match status.single with
              | .On => on_label
              | .Off => off_label
              | .Oneshot => oneshot_label
            style :=
              (match status.single with
              | .On => on_style
              | .Off => off_style
              | .Oneshot => oneshot_style).getD style })
      | .Bitrate =>
        match status.bitrate with
        | some v => some (.inl { content := natToString v, style := style })
        | none =>
          match dflt with
          | some p => p.as_span song context tag_separator strategy
          | none => none
      | .Crossfade =>
        match status.xfade with
        | some v => some (.inl { content := natToString v, style := style })
        | none =>
          match dflt with
          | some p => p.as_span song context tag_separator strategy
          | none => none
      | .QueueLength thousands_separator =>
        some (.inl
          { content := withThousandsSeparator context.queue.length thousands_separator
            style := style })
      | .QueueTimeTotal separator =>
        some (.inl
          { content :=
              formatToDuration ((context.queue.filterMap Song.duration).sum) separator
            style := style })
      | .QueueTimeRemaining separator =>
        some (.inl
          { content :=
              formatToDuration
                (match context.current_song_idx with
                | some current_song_idx =>
                  (((context.queue.drop current_song_idx).filterMap Song.duration).sum)
                | none => 0)
                separator
            style := style })
      | .ActiveTab => some (.inl { content := context.active_tab, style := style })
    | .Property (.Widget w) =>
      match w with
      | .Volume => some (.inl { content := volumeGetStr status.volume, style := style })
      | .States active_style separator_style =>
        let separator : Span := { content := str " / ", style := separator_style }
        some (.inr
          [ { content := str "Repeat"
              style := if status.repeatFlag then active_style else style },
            separator,
            { content := str "Random"
              style := if status.random then active_style else style },
            separator,
            (match status.consume with
            | .On => { content := str "Consume", style := active_style }
            | .Off => { content := str "Consume", style := style }
            | .Oneshot => { content := str "Oneshot(C)", style := active_style }),
            separator,
            (match status.single with
            | .On => { content := str "Single", style := active_style }
            | .Off => { content := str "Single", style := style }
            | .Oneshot => { content := str "Oneshot(S)", style := active_style }) ])
      | .ScanStatus =>
        (context.db_update_start).map (fun update_start =>
          .inl { content := (scanStatusGetStr update_start).getD [], style := style })
    | .Group group =>
      match Property.group_spans group song context tag_separator strategy with
      | some buf => some (.inr buf)
      | none => none
termination_by p _ _ _ _ => sizeOf p

/-- The `for format in group` loop of the `Group` arm of `as_span`:
accumulates every member's span(s); the moment one member resolves to
`None` the whole group resolves to `None`. -/
def Property.group_spans :
    List (Property PropertyKind) → Option Song → AppContext → Str → TagResolutionStrategy →
      Option (List Span)
  | [], _, _, _, _ => some []
  | format :: rest, song, context, tag_separator, strategy =>
    match format.as_span song context tag_separator strategy with
    | some first =>
      match Property.group_spans rest song context tag_separator strategy with
      | some buf =>
        some ((match first with
          | .inl span => [span]
          | .inr spans => spans) ++ buf)
      | none => none
    | none => none
termination_by g _ _ _ _ => sizeOf g

end

/-- Model of `ratatui::widgets::Borders`: which of the four sides carry a
border. -/
structure Borders where
  top : Bool
  bottom : Bool
  left : Bool
  right : Bool
deriving DecidableEq

/-- Model of `ratatui::prelude::Rect`. -/
structure Rect where
  x : Nat
  y : Nat
  width : Nat
  height : Nat
deriving DecidableEq

/-- Model of `ratatui::layout::Direction`. -/
inductive Direction where
  | Horizontal
  | Vertical
deriving DecidableEq

/-- Alignment of a property pane's content (`config::theme::Align`,
configuration code outside `src/`; the value is only carried around). -/
inductive Align where
  | Left
  | Center
  | Right
deriving DecidableEq

/-- The closed pane key set (`config::tabs::PaneType`): the static
variants, the parameterized tag-browser variant and the parameterized
property-display variant.  The two `cfg(debug_assertions)`-only variants
(`Logs`, `FrameCount`) are compiled out of release builds and are not
modelled. -/
inductive PaneType where
  | Queue
  | Directories
  | Artists
  | AlbumArtists
  | Albums
  | Playlists
  | Search
  | AlbumArt
  | Lyrics
  | ProgressBar
  | Header
  | Tabs
  | TabContent
  | Cava
  | Browser (root_tag : Str) (separator : Option Str)
  | Property (content : List (Property PropertyKind)) (align : Align) (scroll_speed : Nat)

/-- A leaf of the layout configuration (`config::tabs::Pane`,
configuration code outside `src/`): only the two fields the traversal
consults are modelled — the pane key and the border flags. -/
structure ConfigPane where
  pane : PaneType
  borders : Borders

/-- Model of `Block::default().borders(b).inner(area)` (ratatui): each
flagged side insets the area by one cell, saturating at zero. -/
def blockInner (borders : Borders) (area : Rect) : Rect :=
  { x := area.x + (if borders.left then 1 else 0)
    y := area.y + (if borders.top then 1 else 0)
    width := area.width - (if borders.left then 1 else 0) - (if borders.right then 1 else 0)
    height := area.height - (if borders.top then 1 else 0) - (if borders.bottom then 1 else 0) }

/-- Model of `ratatui::layout::Constraint` (the two shapes the source's
configuration produces). -/
inductive Constraint where
  | Percentage (p : Nat)
  | Length (l : Nat)
deriving DecidableEq

/-- A configured size weight of a split child
(`config::tabs::PaneOrSplitSize`, configuration code outside `src/`). -/
inductive PaneSize where
  | Percent (p : Nat)
  | Fixed (n : Nat)
deriving DecidableEq

/-- Modelled from the spec: `size.into_constraint(parent_other_size)`
converts the configured weight into a layout constraint; the other axis's
length is the basis argument the source passes. -/
def PaneSize.into_constraint : PaneSize → Nat → Constraint
  | .Percent p, _ => .Percentage p
  | .Fixed n, _ => .Length n

/-- The extent a constraint requests out of a total extent. -/
def constraintExtent (c : Constraint) (total : Nat) : Nat :=
  match c with
  | .Percentage p => total * p / 100
  | .Length l => l

/-- Sequential allocation of sub-rectangles along the split direction,
one per constraint, starting at the given offset. -/
def layoutSplitAux (direction : Direction) (area : Rect) :
    List Constraint → Nat → List Rect
  | [], _ => []
  | c :: rest, offset =>
    let total := match direction with
      | .Horizontal => area.width
      | .Vertical => area.height
    let e := constraintExtent c total
    (match direction with
      | .Horizontal => { x := area.x + offset, y := area.y, width := e, height := area.height }
      | .Vertical => { x := area.x, y := area.y + offset, width := area.width, height := e })
      :: layoutSplitAux direction area rest (offset + e)

/-- Modelled from the spec: `Layout::new(direction,
constraints).split(area)` (ratatui) is, per spec §6, a pure function from
a direction, an ordered list of weighted size constraints and an
available extent to an ordered list of sub-extents — one per
constraint. -/
def layoutSplit (direction : Direction) (constraints : List Constraint) (area : Rect) :
    List Rect :=
  layoutSplitAux direction area constraints 0

mutual

/-- The layout configuration tree (`config::tabs::SizedPaneOrSplit`): a
leaf pane or a directed split over ordered, weighted children. -/
inductive SizedPaneOrSplit where
  | Pane (pane : ConfigPane)
  | Split (direction : Direction) (borders : Borders) (panes : List SizedSubPane)

/-- A split child: a size weight and the child subtree. -/
inductive SizedSubPane where
  | mk (size : PaneSize) (pane : SizedPaneOrSplit)

end

/-- The child's size weight. -/
def SizedSubPane.size : SizedSubPane → PaneSize
  | .mk size _ => size

/-- The child subtree. -/
def SizedSubPane.pane : SizedSubPane → SizedPaneOrSplit
  | .mk _ pane => pane

/-- The `(child, sub-rectangle)` pairs a split pushes, in declared order:
the constraints come from the children's weights with the other axis as
basis, the split's inner area is partitioned, and each area is paired
with the child at the same index (the source's
`areas.iter().enumerate().map(|(idx, area)| (&panes[idx].pane, *area))`). -/
def splitChildren (direction : Direction) (borders : Borders)
    (panes : List SizedSubPane) (area : Rect) : List (SizedPaneOrSplit × Rect) :=
  let parent_other_size := match direction with
    | .Horizontal => area.height
    | .Vertical => area.width
  let constraints := panes.map (fun pane => pane.size.into_constraint parent_other_size)
  let pane_areas := blockInner borders area
  let areas := layoutSplit direction constraints pane_areas
  (areas.zip (panes.map SizedSubPane.pane)).map (fun pa => (pa.2, pa.1))

/-- The explicit-stack loop of `SizedPaneOrSplit::for_each_pane_custom_data`
(`while let Some((configured_panes, area)) = stack.pop()`), with the head
of the list as the top of the stack: a popped leaf computes its inner
rectangle and invokes the pane callback; a popped split computes its
children's areas, invokes the split callback, and pushes the children so
that the last declared child is on top (`stack.extend` appends in declared
order and `pop` takes from the end); any callback error is returned
immediately. -/
def forEachPaneCustomDataAux
    (pane_callback : ConfigPane → Rect → Borders → Rect → T → Except E T)
    (split_callback : Borders → Rect → T → Except E T) :
    List (SizedPaneOrSplit × Rect) → T → Except E T
  | [], custom_data => .ok custom_data
  | (node, area) :: stack, custom_data =>
    match node with
    | .Pane pane =>
      match pane_callback pane (blockInner pane.borders area) pane.borders area custom_data with
      | .ok t => forEachPaneCustomDataAux pane_callback split_callback stack t
      | .error e => .error e
    | .Split direction borders panes =>
      match split_callback borders area custom_data with
      | .ok t =>
        forEachPaneCustomDataAux pane_callback split_callback
          ((splitChildren direction borders panes area).reverse ++ stack) t
      | .error e => .error e
termination_by stack _ => (stack.map (fun x => sizeOf x.1)).sum
decreasing_by
  · simp_arith
  · have key : ∀ (ps : List SizedSubPane) (areas : List Rect),
        (((areas.zip (ps.map SizedSubPane.pane)).map (fun pa => (pa.2, pa.1))).map
          (fun x => sizeOf x.1)).sum ≤ sizeOf ps := by
      intro ps
      induction ps with
      | nil => intro areas; cases areas <;> simp
      | cons p pr ih =>
        intro areas
        cases areas with
        | nil => simp
        | cons a ar =>
          have h1 := ih ar
          have h2 : sizeOf (SizedSubPane.pane p) < sizeOf p := by
            cases p with
            | mk size pane => simp_arith [SizedSubPane.pane]
          simp only [List.map_cons, List.zip_cons_cons, List.sum_cons]
          simp_arith at h1 h2 ⊢
          omega
    simp only [splitChildren, List.map_append, List.sum_append, List.map_reverse,
      List.sum_reverse, List.map_cons, List.sum_cons]
    refine Nat.lt_of_le_of_lt
      (Nat.add_le_add_right (key panes _) ((stack.map (fun x => sizeOf x.1)).sum)) ?_
    simp_arith

/-- `SizedPaneOrSplit::for_each_pane_custom_data`: seeds the stack with
the root and the full area and runs the loop. -/
def SizedPaneOrSplit.for_each_pane_custom_data (self : SizedPaneOrSplit) (area : Rect)
    (custom_data : T)
    (pane_callback : ConfigPane → Rect → Borders → Rect → T → Except E T)
    (split_callback : Borders → Rect → T → Except E T) : Except E T :=
  forEachPaneCustomDataAux pane_callback split_callback [(self, area)] custom_data

/-- One callback invocation of the layout traversal: a leaf visit (with
the leaf, its border-inset inner rectangle, the block's borders and the
outer rectangle) or a split visit. -/
inductive PaneEvent where
  | paneEv (pane : ConfigPane) (pane_area : Rect) (block : Borders) (area : Rect)
  | splitEv (block : Borders) (area : Rect)

/-- Applies the callback an event stands for. -/
def applyEvent (pane_callback : ConfigPane → Rect → Borders → Rect → T → Except E T)
    (split_callback : Borders → Rect → T → Except E T) (custom_data : T) :
    PaneEvent → Except E T
  | .paneEv pane pane_area block area => pane_callback pane pane_area block area custom_data
  | .splitEv block area => split_callback block area custom_data

/-- Sequential processing of an event list: each event's callback runs on
the state threaded so far; the first error stops the run and is returned,
the later events are never applied. -/
def runEvents (pane_callback : ConfigPane → Rect → Borders → Rect → T → Except E T)
    (split_callback : Borders → Rect → T → Except E T) :
    List PaneEvent → T → Except E T
  | [], custom_data => .ok custom_data
  | e :: rest, custom_data =>
    match applyEvent pane_callback split_callback custom_data e with
    | .ok t => runEvents pane_callback split_callback rest t
    | .error err => .error err

/-- The sequence of callback invocations the stack loop performs from a
given stack, in order: defined by the same stack discipline as the loop
itself, independent of any callback. -/
def visitEventsStack : List (SizedPaneOrSplit × Rect) → List PaneEvent
  | [] => []
  | (node, area) :: stack =>
    match node with
    | .Pane pane =>
      .paneEv pane (blockInner pane.borders area) pane.borders area :: visitEventsStack stack
    | .Split direction borders panes =>
      .splitEv borders area ::
        visitEventsStack ((splitChildren direction borders panes area).reverse ++ stack)
termination_by stack => (stack.map (fun x => sizeOf x.1)).sum
decreasing_by
  · simp_arith
  · have key : ∀ (ps : List SizedSubPane) (areas : List Rect),
        (((areas.zip (ps.map SizedSubPane.pane)).map (fun pa => (pa.2, pa.1))).map
          (fun x => sizeOf x.1)).sum ≤ sizeOf ps := by
      intro ps
      induction ps with
      | nil => intro areas; cases areas <;> simp
      | cons p pr ih =>
        intro areas
        cases areas with
        | nil => simp
        | cons a ar =>
          have h1 := ih ar
          have h2 : sizeOf (SizedSubPane.pane p) < sizeOf p := by
            cases p with
            | mk size pane => simp_arith [SizedSubPane.pane]
          simp only [List.map_cons, List.zip_cons_cons, List.sum_cons]
          simp_arith at h1 h2 ⊢
          omega
    simp only [splitChildren, List.map_append, List.sum_append, List.map_reverse,
      List.sum_reverse, List.map_cons, List.sum_cons]
    refine Nat.lt_of_le_of_lt
      (Nat.add_le_add_right (key panes _) ((stack.map (fun x => sizeOf x.1)).sum)) ?_
    simp_arith

/-- The full visit sequence of a traversal of `tree` over `area`. -/
def visitEvents (tree : SizedPaneOrSplit) (area : Rect) : List PaneEvent :=
  visitEventsStack [(tree, area)]

/-- Projection of an event to the visited leaf, if it is a leaf visit. -/
def paneOf : PaneEvent → Option ConfigPane
  | .paneEv pane _ _ _ => some pane
  | .splitEv _ _ => none

/-- The leaves the traversal visits, in invocation order. -/
def visitPanes (tree : SizedPaneOrSplit) (area : Rect) : List ConfigPane :=
  (visitEvents tree area).filterMap paneOf

mutual

/-- The leaves of the layout tree in declared order (left-to-right,
top-to-bottom textual order of the configuration). -/
def panesInOrder : SizedPaneOrSplit → List ConfigPane
  | .Pane pane => [pane]
  | .Split _ _ panes => panesInOrderList panes

/-- Declared-order leaves of a list of split children. -/
def panesInOrderList : List SizedSubPane → List ConfigPane
  | [] => []
  | .mk _ pane :: rest => panesInOrder pane ++ panesInOrderList rest

end

mutual

/-- The number of nodes (leaves and splits) of the layout tree. -/
def nodeCount : SizedPaneOrSplit → Nat
  | .Pane _ => 1
  | .Split _ _ panes => 1 + nodeCountList panes

/-- Total node count of a list of split children. -/
def nodeCountList : List SizedSubPane → Nat
  | [] => 0
  | .mk _ pane :: rest => nodeCount pane + nodeCountList rest

end

/-- Modelled from the spec: `PropertyPane::new(content, align,
scroll_speed, context)` (pane implementation outside `src/`) is a pure
view recording the inline format spec and its runtime parameters; the
context argument configures rendering only and is not part of the
value's identity. -/
structure PropertyPane where
  content : List (Property PropertyKind)
  align : Align
  scroll_speed : Nat

/-- The state types of the concrete pane components.  Each pane
implementation lives outside `src/`; the registry treats the instances
opaquely, so each component's state is an arbitrary type. -/
structure PaneStates where
  QueueT : Type
  DirectoriesT : Type
  ArtistsT : Type
  AlbumsT : Type
  PlaylistsT : Type
  SearchT : Type
  AlbumArtT : Type
  LyricsT : Type
  ProgressBarT : Type
  HeaderT : Type
  TabsT : Type
  CavaT : Type
  OthersT : Type

/-- The pane registry (`PaneContainer`): one owned instance per static
pane type (`artists` and `album_artists` are both tag browsers, as in the
source) and a keyed collection of dynamically declared instances
(`others`, embedded as an association list keyed by `PaneType`). -/
structure PaneContainer (S : PaneStates) where
  queue : S.QueueT
  directories : S.DirectoriesT
  albums : S.AlbumsT
  artists : S.ArtistsT
  album_artists : S.ArtistsT
  playlists : S.PlaylistsT
  search : S.SearchT
  album_art : S.AlbumArtT
  lyrics : S.LyricsT
  progress_bar : S.ProgressBarT
  header : S.HeaderT
  tabs : S.TabsT
  cava : S.CavaT
  others : List (PaneType × S.OthersT)

/-- A pane handle (`Panes`): the type-erased reference `get_mut` returns,
one variant per concrete component; `TabContent` carries nothing and
`Property` carries the freshly constructed value-type pane. -/
inductive Panes (S : PaneStates) where
  | Queue (s : S.QueueT)
  | Directories (s : S.DirectoriesT)
  | Artists (s : S.ArtistsT)
  | AlbumArtists (s : S.ArtistsT)
  | Albums (s : S.AlbumsT)
  | Playlists (s : S.PlaylistsT)
  | Search (s : S.SearchT)
  | AlbumArt (s : S.AlbumArtT)
  | Lyrics (s : S.LyricsT)
  | ProgressBar (s : S.ProgressBarT)
  | Header (s : S.HeaderT)
  | Tabs (s : S.TabsT)
  | TabContent
  | Property (p : PropertyPane)
  | Others (s : S.OthersT)
  | Cava (s : S.CavaT)

/-- Whether a stored dynamic key equals the `Browser` key being looked up
(the `HashMap` key equality the `others.get_mut(pane)` call performs;
derived equality on the `Browser` variant's fields). -/
def browserKeyMatches (root_tag : Str) (separator : Option Str) : PaneType → Bool
  | .Browser rt sep => rt = root_tag ∧ sep = separator
  | _ => false

/-- The lookup error (`anyhow`): `get_mut` fails only for an unregistered
dynamic pane, with the source's "expected pane to be defined" context. -/
inductive PaneError where
  | expectedPaneToBeDefined (root_tag : Str) (separator : Option Str)

/-- `PaneContainer::get_mut`: static pane types always resolve to a
handle aliasing the owned field; `Browser` keys are looked up in the
dynamic collection and an absent key is an error; `Property` constructs
a fresh `PropertyPane` from the key's parameters on every call;
`TabContent` resolves to the parameterless handle. -/
def PaneContainer.get_mut (self : PaneContainer S) :
    PaneType → Except PaneError (Panes S)
  | .Queue => .ok (.Queue self.queue)
  | .Directories => .ok (.Directories self.directories)
  | .Artists => .ok (.Artists self.artists)
  | .AlbumArtists => .ok (.AlbumArtists self.album_artists)
  | .Albums => .ok (.Albums self.albums)
  | .Playlists => .ok (.Playlists self.playlists)
  | .Search => .ok (.Search self.search)
  | .AlbumArt => .ok (.AlbumArt self.album_art)
  | .Lyrics => .ok (.Lyrics self.lyrics)
  | .ProgressBar => .ok (.ProgressBar self.progress_bar)
  | .Header => .ok (.Header self.header)
  | .Tabs => .ok (.Tabs self.tabs)
  | .TabContent => .ok .TabContent
  | .Property content align scroll_speed =>
    .ok (.Property { content := content, align := align, scroll_speed := scroll_speed })
  | .Browser root_tag separator =>
    match (self.others.find? (fun kv => browserKeyMatches root_tag separator kv.1)) with
    | some kv => .ok (.Others kv.2)
    | none => .error (.expectedPaneToBeDefined root_tag separator)
  | .Cava => .ok (.Cava self.cava)

/-- One uniform operation of the dispatch surface, as `pane_call`
dispatches it: for every concrete component a state transition that may
fail (the source methods take `&mut self` and return `Result<()>`). -/
structure PaneMethod (S : PaneStates) (E : Type) where
  onQueue : S.QueueT → Except E S.QueueT
  onDirectories : S.DirectoriesT → Except E S.DirectoriesT
  onArtists : S.ArtistsT → Except E S.ArtistsT
  onAlbums : S.AlbumsT → Except E S.AlbumsT
  onPlaylists : S.PlaylistsT → Except E S.PlaylistsT
  onSearch : S.SearchT → Except E S.SearchT
  onAlbumArt : S.AlbumArtT → Except E S.AlbumArtT
  onLyrics : S.LyricsT → Except E S.LyricsT
  onProgressBar : S.ProgressBarT → Except E S.ProgressBarT
  onHeader : S.HeaderT → Except E S.HeaderT
  onTabs : S.TabsT → Except E S.TabsT
  onCava : S.CavaT → Except E S.CavaT
  onProperty : PropertyPane → Except E PropertyPane
  onOthers : S.OthersT → Except E S.OthersT

/-- The `pane_call!` dispatch: a single exhaustive match over the handle,
invoking the concrete component's method; the `TabContent` arm invokes
nothing and is `Ok(())`, leaving every state untouched. -/
def pane_call (screen : Panes S) (m : PaneMethod S E) : Except E (Panes S) :=
  match screen with
  | .Queue s => (m.onQueue s).map .Queue
  | .Directories s => (m.onDirectories s).map .Directories
  | .Artists s => (m.onArtists s).map .Artists
  | .AlbumArtists s => (m.onArtists s).map .AlbumArtists
  | .Albums s => (m.onAlbums s).map .Albums
  | .Playlists s => (m.onPlaylists s).map .Playlists
  | .Search s => (m.onSearch s).map .Search
  | .AlbumArt s => (m.onAlbumArt s).map .AlbumArt
  | .Lyrics s => (m.onLyrics s).map .Lyrics
  | .ProgressBar s => (m.onProgressBar s).map .ProgressBar
  | .Header s => (m.onHeader s).map .Header
  | .Tabs s => (m.onTabs s).map .Tabs
  | .TabContent => .ok .TabContent
  | .Property p => (m.onProperty p).map .Property
  | .Others s => (m.onOthers s).map .Others
  | .Cava s => (m.onCava s).map .Cava

/-- Follows the words of claim C7 (for comparison with the source's
`Song::format`): every tag-backed kind, including track and disc,
collapses all the tag's values via the supplied strategy; track and disc
then format numerically, zero-padded, when the collapsed text parses. -/
def formatClaimedC7 (s : Song) (property : SongProperty) (tag_separator : Str)
    (strategy : TagResolutionStrategy) : Option Str :=
  match property with
  | .Filename => s.file_name
  | .FileExtension => s.file_ext
  | .File => some s.file
  | .Title => (s.metadata (str "title")).map (fun v => strategy.resolve v tag_separator)
  | .Artist => (s.metadata (str "artist")).map (fun v => strategy.resolve v tag_separator)
  | .Album => (s.metadata (str "album")).map (fun v => strategy.resolve v tag_separator)
  | .Duration => s.duration.map (fun d => durationDisplay d)
  | .Other name => (s.metadata name).map (fun v => strategy.resolve v tag_separator)
  | .Disc => (s.metadata (str "disc")).map (fun v =>
      let t := strategy.resolve v tag_separator
      match parseU32 t with
      | some n => pad2 n
      | none => t)
  | .Track => (s.metadata (str "track")).map (fun v =>
      let t := strategy.resolve v tag_separator
      match parseU32 t with
      | some n => pad2 n
      | none => t)

/-- Follows the words of claim C8 (for comparison with the source's
`Song::matches`): true iff some spec in the set has a plain-text
resolution (`as_string`, the group-collapsing plain resolution) that
contains the filter case-insensitively. -/
def matchesClaimedC8 (s : Song) (formats : List (Property SongProperty)) (filter : Str) :
    Bool :=
  formats.any (fun f =>
    ((f.as_string (some s) [] .All).map (fun v => containsCI v filter)).getD false)

mutual

/-- No `Sticker` node anywhere in the spec (kind, group members or the
default chain); the fragment of the spec language on which `matches`
agrees with containment over `as_string`. -/
def stickerFree : Property SongProperty → Bool
  | .mk kind _ dflt =>
    stickerFreeKind kind &&
      (match dflt with
      | some d => stickerFree d
      | none => true)
termination_by p => sizeOf p

/-- See `stickerFree`. -/
def stickerFreeKind : PropertyKindOrText SongProperty → Bool
  | .Text _ => true
  | .Sticker _ => false
  | .Property _ => true
  | .Group g => stickerFreeList g
termination_by k => sizeOf k

/-- See `stickerFree`. -/
def stickerFreeList : List (Property SongProperty) → Bool
  | [] => true
  | f :: rest => stickerFree f && stickerFreeList rest
termination_by g => sizeOf g

end

/-- A song with no metadata, no stickers and no duration. -/
def songEmpty : Song := ⟨str "file", none, fun _ => none, none⟩

/-- A song whose only tag is a title. -/
def songTitle : Song :=
  ⟨str "file", none, fun k => if k = str "title" then some ⟨str "title", []⟩ else none, none⟩

/-- A song whose track tag is `"10"`. -/
def songT10 : Song :=
  ⟨str "a", none, fun k => if k = str "track" then some ⟨str "10", []⟩ else none, none⟩

/-- A song whose track tag is `"9"`. -/
def songT9 : Song :=
  ⟨str "b", none, fun k => if k = str "track" then some ⟨str "9", []⟩ else none, none⟩

/-- A song whose track tag is the unparsable `"5a"`. -/
def songT5a : Song :=
  ⟨str "c", none, fun k => if k = str "track" then some ⟨str "5a", []⟩ else none, none⟩

/-- A song whose track tag holds the two values `"1"` and `"2"`. -/
def songTrack12 : Song :=
  ⟨str "d", none, fun k => if k = str "track" then some ⟨str "1", [str "2"]⟩ else none, none⟩

/-- A status snapshot with nothing special set. -/
def status0 : Status := ⟨.Play, 100, false, false, .Off, .Off, none, none, 0, 0⟩

/-- A context snapshot with an empty queue. -/
def ctx0 : AppContext := ⟨status0, [], str "tab", none, none⟩

/-- Borderless border flags. -/
def b0 : Borders := ⟨false, false, false, false⟩

/-- A 100 by 10 area at the origin. -/
def area0 : Rect := ⟨0, 0, 100, 10⟩

/-- First declared leaf of the example layout: the queue pane. -/
def paneQ : ConfigPane := ⟨.Queue, b0⟩

/-- Second declared leaf of the example layout: the directories pane. -/
def paneD : ConfigPane := ⟨.Directories, b0⟩

/-- A horizontal split of the two example leaves, declared queue first. -/
def tree4 : SizedPaneOrSplit :=
  .Split .Horizontal b0 [.mk (.Fixed 50) (.Pane paneQ), .mk (.Fixed 50) (.Pane paneD)]

/-- A pane callback that fails on the directories pane and counts leaves
otherwise. -/
def pcbErr : ConfigPane → Rect → Borders → Rect → Nat → Except Nat Nat :=
  fun pane _ _ _ t =>
    match pane.pane with
    | .Directories => .error 7
    | _ => .ok (t + 1)

/-- A pane callback that records each visited leaf's pane key. -/
def pcbLog : ConfigPane → Rect → Borders → Rect → List PaneType → Except Nat (List PaneType) :=
  fun pane _ _ _ acc => .ok (acc ++ [pane.pane])

/-- A split callback that changes nothing. -/
def scbOk : Borders → Rect → T → Except E T := fun _ _ t => .ok t

/-- A pane callback that records each visited leaf. -/
def pcbLogPane : ConfigPane → Rect → Borders → Rect → List ConfigPane →
    Except Unit (List ConfigPane) :=
  fun pane _ _ _ acc => .ok (acc ++ [pane])

/-- A concrete pane-state signature for witnesses: unit state everywhere,
dynamic panes carrying a number. -/
abbrev S0 : PaneStates :=
  ⟨Unit, Unit, Unit, Unit, Unit, Unit, Unit, Unit, Unit, Unit, Unit, Unit, Nat⟩

/-- A concrete container with one registered dynamic browser pane. -/
def c0 : PaneContainer S0 :=
  ⟨(), (), (), (), (), (), (), (), (), (), (), (), (),
    [(.Browser (str "genre") none, 5)]⟩

/-- C5 (amended): text within the limit is returned unchanged; longer
text is truncated to `max - markerLength` characters (saturating at zero)
with the marker appended; the result's character count stays within `max`
whenever the marker itself is within `max` (when the marker is longer
than `max`, the truncated result is the bare marker and exceeds the
limit). -/
theorem C5_ellipsize_amended (s : Str) (max_len : Nat) (symbols : SymbolsConfig) :
    (s.length ≤ max_len → ellipsize s max_len symbols = s) ∧
    (s.length > max_len →
      ellipsize s max_len symbols
        = s.take (max_len - symbols.ellipsis.length) ++ symbols.ellipsis) ∧
    (symbols.ellipsis.length ≤ max_len → (ellipsize s max_len symbols).length ≤ max_len) := by
  refine ⟨fun h => ?_, fun h => ?_, fun h => ?_⟩
  · rw [ellipsize, if_neg (by omega)]
  · rw [ellipsize, if_pos h]
  · by_cases hl : s.length > max_len
    · rw [ellipsize, if_pos hl]
      simp only [List.length_append, List.length_take]
      omega
    · rw [ellipsize, if_neg hl]
      omega

/-- Witness for C5 at concrete inputs: a short text is unchanged, a long
text is truncated with the marker appended and stays within the limit. -/
theorem C5_ellipsize_witness :
    ellipsize (str "ab") 5 ⟨['.']⟩ = str "ab" ∧
    ellipsize (str "abcdef") 4 ⟨['.']⟩
      = (str "abcdef").take (4 - (['.'] : Str).length) ++ ['.'] ∧
    (ellipsize (str "abcdef") 4 ⟨['.']⟩).length ≤ 4 :=
  ⟨(C5_ellipsize_amended (str "ab") 5 ⟨['.']⟩).1 (by decide),
   (C5_ellipsize_amended (str "abcdef") 4 ⟨['.']⟩).2.1 (by decide),
   (C5_ellipsize_amended (str "abcdef") 4 ⟨['.']⟩).2.2 (by decide)⟩

/-- Counterexample to C5 as stated: with a three-character marker and a
limit of one, the ellipsized text has three characters, exceeding the
limit. -/
theorem C5_ellipsize_counterexample :
    ¬ (ellipsize (str "ab") 1 ⟨str "..."⟩).length ≤ 1 := by decide

/-- C10: the `TabContent` lookup always succeeds with the parameterless
handle, and every operation `pane_call` dispatches to that handle is a
no-op `Ok(())`: no component method is consulted and the returned handle
is unchanged, whatever the operation does on every other component. -/
theorem C10_tab_content {S : PaneStates} {E : Type} (c : PaneContainer S)
    (m : PaneMethod S E) :
    c.get_mut .TabContent = .ok .TabContent ∧
    pane_call (.TabContent : Panes S) m = .ok .TabContent :=
  ⟨rfl, rfl⟩

/-- C9: every static pane type resolves to `Ok` of a handle holding
exactly the container's owned field (so repeated lookups alias the same
stored instance); a `Browser` key resolves to the stored dynamic instance
when the key is registered and to the `expected pane to be defined` error
when it is not; a `Property` key constructs a fresh `PropertyPane` from
its own parameters on every call. -/
theorem C9_get_mut {S : PaneStates} (c : PaneContainer S) :
    (c.get_mut .Queue = .ok (.Queue c.queue)) ∧
    (c.get_mut .Directories = .ok (.Directories c.directories)) ∧
    (c.get_mut .Artists = .ok (.Artists c.artists)) ∧
    (c.get_mut .AlbumArtists = .ok (.AlbumArtists c.album_artists)) ∧
    (c.get_mut .Albums = .ok (.Albums c.albums)) ∧
    (c.get_mut .Playlists = .ok (.Playlists c.playlists)) ∧
    (c.get_mut .Search = .ok (.Search c.search)) ∧
    (c.get_mut .AlbumArt = .ok (.AlbumArt c.album_art)) ∧
    (c.get_mut .Lyrics = .ok (.Lyrics c.lyrics)) ∧
    (c.get_mut .ProgressBar = .ok (.ProgressBar c.progress_bar)) ∧
    (c.get_mut .Header = .ok (.Header c.header)) ∧
    (c.get_mut .Tabs = .ok (.Tabs c.tabs)) ∧
    (c.get_mut .TabContent = .ok .TabContent) ∧
    (c.get_mut .Cava = .ok (.Cava c.cava)) ∧
    (∀ root_tag separator v,
      c.others.find? (fun kv => browserKeyMatches root_tag separator kv.1) = some v →
      c.get_mut (.Browser root_tag separator) = .ok (.Others v.2)) ∧
    (∀ root_tag separator,
      c.others.find? (fun kv => browserKeyMatches root_tag separator kv.1) = none →
      c.get_mut (.Browser root_tag separator)
        = .error (.expectedPaneToBeDefined root_tag separator)) ∧
    (∀ content align scroll_speed,
      c.get_mut (.Property content align scroll_speed)
        = .ok (.Property { content := content, align := align, scroll_speed := scroll_speed })) := by
  refine ⟨rfl, rfl, rfl, rfl, rfl, rfl, rfl, rfl, rfl, rfl, rfl, rfl, rfl, rfl,
    ?_, ?_, fun _ _ _ => rfl⟩
  · intro root_tag separator v h
    simp [PaneContainer.get_mut, h]
  · intro root_tag separator h
    simp [PaneContainer.get_mut, h]

/-- Witness for C9 at a concrete container: the registered browser key
resolves to the stored instance; an unregistered key is an error. -/
theorem C9_get_mut_witness :
    c0.get_mut (.Browser (str "genre") none) = .ok (.Others 5) ∧
    c0.get_mut (.Browser (str "mood") none)
      = .error (.expectedPaneToBeDefined (str "mood") none) :=
  ⟨(C9_get_mut c0).2.2.2.2.2.2.2.2.2.2.2.2.2.2.1 (str "genre") none
      (.Browser (str "genre") none, 5) rfl,
   (C9_get_mut c0).2.2.2.2.2.2.2.2.2.2.2.2.2.2.2.1 (str "mood") none rfl⟩

/-- C7 (amended): title, artist, album and arbitrary tags collapse all
their values via the supplied strategy; track and disc ignore the
strategy and the separator entirely and use only the tag's last value —
track zero-pads it when it parses as a `u32`, disc returns it verbatim;
a property whose underlying field is absent resolves to `None`, never to
`Some` of an empty string. -/
theorem C7_format_amended (s : Song) (sep : Str) (strat : TagResolutionStrategy) :
    (s.format .Title sep strat
      = (s.metadata (str "title")).map (fun v => strat.resolve v sep)) ∧
    (s.format .Artist sep strat
      = (s.metadata (str "artist")).map (fun v => strat.resolve v sep)) ∧
    (s.format .Album sep strat
      = (s.metadata (str "album")).map (fun v => strat.resolve v sep)) ∧
    (∀ name, s.format (.Other name) sep strat
      = (s.metadata name).map (fun v => strat.resolve v sep)) ∧
    (∀ sep2 strat2, s.format .Track sep strat = s.format .Track sep2 strat2) ∧
    (∀ sep2 strat2, s.format .Disc sep strat = s.format .Disc sep2 strat2) ∧
    (s.format .Track sep strat = (s.metadata (str "track")).map (fun v =>
        match parseU32 v.last with
        | some n => pad2 n
        | none => v.last)) ∧
    (s.format .Disc sep strat = (s.metadata (str "disc")).map (fun v => v.last)) ∧
    (∀ p, s.hasProp p = false → s.format p sep strat = none) := by
  refine ⟨rfl, rfl, rfl, fun _ => rfl, fun _ _ => rfl, fun _ _ => rfl, rfl, rfl, ?_⟩
  intro p hp
  cases p <;> simp_all [Song.hasProp, Song.sortKey, Song.format]

/-- Witness for C7 at a concrete input: a song with no title resolves the
title property to `None`. -/
theorem C7_format_witness :
    Song.format songEmpty .Title [] .All = none :=
  (C7_format_amended songEmpty [] .All).2.2.2.2.2.2.2.2 .Title (by decide)

/-- Counterexample to C7 as stated: on a song whose track tag holds the
values `"1"` and `"2"`, `Song::format` returns `"02"` (last value,
zero-padded), while collapsing all values via the `All` strategy with
separator `"-"` — what the claim prescribes for every tag-backed kind —
would give `"1-2"`. -/
theorem C7_format_counterexample :
    Song.format songTrack12 .Track (str "-") .All = some (str "02") ∧
    formatClaimedC7 songTrack12 .Track (str "-") .All = some (str "1-2") ∧
    Song.format songTrack12 .Track (str "-") .All
      ≠ formatClaimedC7 songTrack12 .Track (str "-") .All := by decide

/-- The `Group` loop of `as_string` over members that all resolve:
the concatenation of the members' resolutions. -/
theorem group_as_string_all (song : Option Song) (sep : Str)
    (strat : TagResolutionStrategy) :
    ∀ (g : List (Property SongProperty)),
      (∀ f ∈ g, (f.as_string song sep strat).isSome) →
      Property.group_as_string g song sep strat
        = some ((g.map (fun f => (f.as_string song sep strat).getD [])).flatten) := by
  intro g
  induction g with
  | nil => intro _; simp [Property.group_as_string]
  | cons f rest ih =>
    intro h
    obtain ⟨v, hv⟩ := Option.isSome_iff_exists.mp (h f (by simp))
    have ih' := ih (fun f' hf' => h f' (List.mem_cons_of_mem _ hf'))
    simp [Property.group_as_string, hv, ih']

/-- The `Group` loop of `as_string` fails the moment some member fails. -/
theorem group_as_string_none (song : Option Song) (sep : Str)
    (strat : TagResolutionStrategy) :
    ∀ (g : List (Property SongProperty)),
      (∃ f ∈ g, f.as_string song sep strat = none) →
      Property.group_as_string g song sep strat = none := by
  intro g
  induction g with
  | nil => simp
  | cons f rest ih =>
    rintro ⟨f', hf', hnone⟩
    rcases List.mem_cons.mp hf' with h1 | h2
    · subst h1
      simp [Property.group_as_string, hnone]
    · cases hres : f.as_string song sep strat with
      | none => simp [Property.group_as_string, hres]
      | some v => simp [Property.group_as_string, hres, ih ⟨f', h2, hnone⟩]

/-- C1: plain-text resolution of a group is all-or-nothing — when every
member resolves, the group resolves to the concatenation of the members'
resolutions in order; the moment some member resolves to `None`, the
result is exactly the resolution of the group's own default (`None` when
there is none), never a partial concatenation. -/
theorem C1_group_as_string (g : List (Property SongProperty)) (style : Option Style)
    (dflt : Option (Property SongProperty)) (song : Option Song) (sep : Str)
    (strat : TagResolutionStrategy) :
    ((∀ f ∈ g, (f.as_string song sep strat).isSome) →
      (Property.mk (.Group g) style dflt).as_string song sep strat
        = some ((g.map (fun f => (f.as_string song sep strat).getD [])).flatten)) ∧
    ((∃ f ∈ g, f.as_string song sep strat = none) →
      (Property.mk (.Group g) style dflt).as_string song sep strat
        = (match dflt with
          | some d => d.as_string song sep strat
          | none => none)) := by
  constructor
  · intro h
    have hg := group_as_string_all song sep strat g h
    cases dflt <;> simp [Property.as_string, hg]
  · intro h
    have hg := group_as_string_none song sep strat g h
    cases dflt <;> simp [Property.as_string, hg]

/-- Witness for C1 at concrete inputs: a group of two literals resolves
to their concatenation; a group with a failing member and a group-level
default resolves to the default. -/
theorem C1_group_as_string_witness :
    (Property.mk (.Group [.mk (.Text (str "a")) none none, .mk (.Text (str "b")) none none])
        none none).as_string none [] .All = some (str "ab") ∧
    (Property.mk (.Group [.mk (.Property .Track) none none]) none
        (some (.mk (.Text (str "fb")) none none))).as_string (some songEmpty) [] .All
      = some (str "fb") := by
  have h1 := (C1_group_as_string
    [.mk (.Text (str "a")) none none, .mk (.Text (str "b")) none none] none none
    none [] .All).1 (by
      intro f hf
      rcases List.mem_cons.mp hf with h | h
      · subst h; simp [Property.as_string]
      · simp at h; subst h; simp [Property.as_string])
  have h2 := (C1_group_as_string [.mk (.Property .Track) none none] none
    (some (.mk (.Text (str "fb")) none none)) (some songEmpty) [] .All).2
    ⟨.mk (.Property .Track) none none, by simp, by
      simp [Property.as_string, Song.format, songEmpty]⟩
  constructor
  · rw [h1]; simp [Property.as_string]; decide
  · rw [h2]; simp [Property.as_string]

/-- One step of the `Song::matches` loop: matching a list is matching the
head spec alone or the tail (the head's per-kind test does not depend on
the tail). -/
theorem matches_cons (s : Song) (filter : Str) (f : Property SongProperty)
    (rest : List (Property SongProperty)) :
    s.matches (f :: rest) filter = (s.matches [f] filter || s.matches rest filter) := by
  obtain ⟨kind, style, dflt⟩ := f
  cases kind with
  | Text v =>
    cases h : containsCI v filter <;> simp [Song.matches, h]
  | Sticker key =>
    cases dflt with
    | some d =>
      cases hs : s.stickers.bind
          (fun stickers => (stickers key).map (fun value => containsCI value filter)) with
      | some b => cases b <;> simp [Song.matches, hs]
      | none => cases hd : s.matches [d] filter <;> simp [Song.matches, hs, hd]
    | none =>
      cases hs : s.stickers.bind
          (fun stickers => (stickers key).map (fun value => containsCI value filter)) with
      | some b => cases b <;> simp [Song.matches, hs]
      | none => simp [Song.matches, hs]
  | Property property =>
    cases dflt with
    | some d =>
      cases hf : s.format property [] .All with
      | some p => cases h : containsCI p filter <;> simp [Song.matches, hf, h]
      | none => cases hd : s.matches [d] filter <;> simp [Song.matches, hf, hd]
    | none =>
      cases hf : s.format property [] .All with
      | some p => cases h : containsCI p filter <;> simp [Song.matches, hf, h]
      | none => simp [Song.matches, hf]
  | Group g =>
    cases hg : (Property.mk (.Group g) style dflt).as_string (some s) [] .All with
    | some v => cases h : containsCI v filter <;> simp [Song.matches, hg, h]
    | none => simp [Song.matches, hg]

/-- The `Song::matches` loop over a spec set is the disjunction of the
per-spec tests, in order, true at the first spec that matches. -/
theorem matches_any (s : Song) (filter : Str) :
    ∀ formats, s.matches formats filter = formats.any (fun f => s.matches [f] filter) := by
  intro formats
  induction formats with
  | nil => simp [Song.matches]
  | cons f rest ih => rw [matches_cons, ih]; simp

/-- On sticker-free specs, the per-spec test of `Song::matches` is
exactly case-insensitive containment over the plain-text resolution
(`as_string` with the empty separator and the `All` strategy). -/
theorem matches_single_stickerFree (s : Song) (filter : Str) :
    ∀ (n : Nat) (f : Property SongProperty), sizeOf f ≤ n → stickerFree f = true →
      s.matches [f] filter
        = ((f.as_string (some s) [] .All).map (fun v => containsCI v filter)).getD false := by
  intro n
  induction n using Nat.strong_induction_on with
  | _ n ih =>
    intro f hsize hfree
    obtain ⟨kind, style, dflt⟩ := f
    cases kind with
    | Text v => cases h : containsCI v filter <;> simp [Song.matches, Property.as_string, h]
    | Sticker key => cases dflt <;> simp [stickerFree, stickerFreeKind] at hfree
    | Property property =>
      cases dflt with
      | some d =>
        have hd : sizeOf d < sizeOf (Property.mk (.Property property) style (some d)) := by
          simp_arith
        have hdfree : stickerFree d = true := by
          simp [stickerFree, stickerFreeKind] at hfree
          exact hfree
        have ihd := ih (sizeOf d) (by omega) d (Nat.le_refl _) hdfree
        cases hf : s.format property [] .All with
        | some p =>
          cases h : containsCI p filter <;> simp [Song.matches, Property.as_string, hf, h]
        | none =>
          cases hb : ((d.as_string (some s) [] .All).map
              (fun v => containsCI v filter)).getD false <;>
            simp [Song.matches, Property.as_string, hf, ihd, hb]
      | none =>
        cases hf : s.format property [] .All with
        | some p =>
          cases h : containsCI p filter <;> simp [Song.matches, Property.as_string, hf, h]
        | none => simp [Song.matches, Property.as_string, hf]
    | Group g =>
      cases hg : (Property.mk (.Group g) style dflt).as_string (some s) [] .All with
      | some v => cases h : containsCI v filter <;> simp [Song.matches, hg, h]
      | none => simp [Song.matches, hg]

/-- C8 (amended): `matches` is false on the empty spec set; over a set it
is the ordered disjunction of the per-spec tests (true at the first
match); and on sticker-free specs the per-spec test is exactly
case-insensitive containment over the spec's plain-text resolution.
(For a `Sticker` spec, `matches` follows the spec's default chain when
the sticker is absent, while the plain-text resolution `as_string` does
not, so there the containment reading fails.) -/
theorem C8_matches_amended (s : Song) (filter : Str) :
    (s.matches [] filter = false) ∧
    (∀ formats, s.matches formats filter
        = formats.any (fun f => s.matches [f] filter)) ∧
    (∀ f, stickerFree f = true →
      s.matches [f] filter
        = ((f.as_string (some s) [] .All).map (fun v => containsCI v filter)).getD false) :=
  ⟨by simp [Song.matches], matches_any s filter,
   fun f hf => matches_single_stickerFree s filter (sizeOf f) f (Nat.le_refl _) hf⟩

/-- Witness for C8 at a concrete input: a title property spec matches a
substring of the title, in agreement with containment over its plain-text
resolution. -/
theorem C8_matches_witness :
    songTitle.matches [.mk (.Property .Title) none none] (str "itl")
      = (((Property.mk (.Property .Title) none none).as_string (some songTitle) [] .All).map
          (fun v => containsCI v (str "itl"))).getD false :=
  (C8_matches_amended songTitle (str "itl")).2.2 (.mk (.Property .Title) none none)
    (by simp [stickerFree, stickerFreeKind])

/-- Counterexample to C8 as stated: on a song with no stickers, a
`Sticker` spec whose default is the literal `"abc"` matches the filter
`"abc"` (the default chain is followed), yet no spec in the set has a
plain-text resolution containing the filter — `as_string` yields `None`
for that spec, so the claimed characterization says `false`. -/
theorem C8_matches_counterexample :
    songEmpty.matches
        [.mk (.Sticker (str "k")) none (some (.mk (.Text (str "abc")) none none))]
        (str "abc") = true ∧
    matchesClaimedC8 songEmpty
        [.mk (.Sticker (str "k")) none (some (.mk (.Text (str "abc")) none none))]
        (str "abc") = false := by
  constructor
  · simp [Song.matches, songEmpty, containsCI, containsStr, lower, str]
  · simp [matchesClaimedC8, Property.as_string, songEmpty]

/-- The `Group` loop of `as_line_ellipsized` fails the moment some member
fails. -/
theorem group_line_spans_none (s : Song) (max_len : Nat) (symbols : SymbolsConfig)
    (sep : Str) (strat : TagResolutionStrategy) :
    ∀ (g : List (Property SongProperty)),
      (∃ f ∈ g, s.as_line_ellipsized f max_len symbols sep strat = none) →
      s.group_line_spans g max_len symbols sep strat = none := by
  intro g
  induction g with
  | nil => simp
  | cons f rest ih =>
    rintro ⟨f', hf', hnone⟩
    rcases List.mem_cons.mp hf' with h1 | h2
    · subst h1
      simp [Song.group_line_spans, hnone]
    · cases hres : s.as_line_ellipsized f max_len symbols sep strat with
      | none => simp [Song.group_line_spans, hres]
      | some v => simp [Song.group_line_spans, hres, ih ⟨f', h2, hnone⟩]

/-- The `Group` loop of `as_span` fails the moment some member fails. -/
theorem group_spans_none (song : Option Song) (context : AppContext) (sep : Str)
    (strat : TagResolutionStrategy) :
    ∀ (g : List (Property PropertyKind)),
      (∃ f ∈ g, f.as_span song context sep strat = none) →
      Property.group_spans g song context sep strat = none := by
  intro g
  induction g with
  | nil => simp
  | cons f rest ih =>
    rintro ⟨f', hf', hnone⟩
    rcases List.mem_cons.mp hf' with h1 | h2
    · subst h1
      simp [Property.group_spans, hnone]
    · cases hres : f.as_span song context sep strat with
      | none => simp [Property.group_spans, hres]
      | some v => simp [Property.group_spans, hres, ih ⟨f', h2, hnone⟩]

/-- C2 (amended): the two styled paths disagree on group fallback.  In
`as_line_ellipsized`, the moment a group member fails the group's own
default is resolved instead (`None` only without a default), as the
claim states.  In `as_span`, the moment a group member fails the whole
group resolves to `None` directly — the group's default is never
consulted, even when it would resolve. -/
theorem C2_styled_group_fallback_amended :
    (∀ (s : Song) (g : List (Property SongProperty)) (style : Option Style)
        (dflt : Option (Property SongProperty)) (max_len : Nat) (symbols : SymbolsConfig)
        (sep : Str) (strat : TagResolutionStrategy),
      (∃ f ∈ g, s.as_line_ellipsized f max_len symbols sep strat = none) →
      s.as_line_ellipsized (.mk (.Group g) style dflt) max_len symbols sep strat
        = (match dflt with
          | some d => s.as_line_ellipsized d max_len symbols sep strat
          | none => none)) ∧
    (∀ (g : List (Property PropertyKind)) (style : Option Style)
        (dflt : Option (Property PropertyKind)) (song : Option Song)
        (context : AppContext) (sep : Str) (strat : TagResolutionStrategy),
      (∃ f ∈ g, f.as_span song context sep strat = none) →
      (Property.mk (.Group g) style dflt).as_span song context sep strat = none) := by
  constructor
  · intro s g style dflt max_len symbols sep strat h
    have hg := group_line_spans_none s max_len symbols sep strat g h
    cases dflt <;> simp [Song.as_line_ellipsized, hg]
  · intro g style dflt song context sep strat h
    have hg := group_spans_none song context sep strat g h
    cases dflt <;> simp [Property.as_span, hg]

/-- Witness for C2 at concrete inputs: a group whose only member is an
unresolvable track property falls back to its default in
`as_line_ellipsized`, and resolves to `None` in `as_span`. -/
theorem C2_styled_group_fallback_witness :
    songEmpty.as_line_ellipsized
        (.mk (.Group [.mk (.Property .Track) none none]) none
          (some (.mk (.Text (str "fb")) none none))) 10 ⟨['.']⟩ [] .All
      = (match (some (Property.mk (.Text (str "fb")) none none) :
            Option (Property SongProperty)) with
        | some d => songEmpty.as_line_ellipsized d 10 ⟨['.']⟩ [] .All
        | none => none) ∧
    (Property.mk (.Group [.mk (.Property (.Song .Track)) none none]) none none).as_span
        (some songEmpty) ctx0 [] .All = none :=
  ⟨C2_styled_group_fallback_amended.1 songEmpty [.mk (.Property .Track) none none] none
      (some (.mk (.Text (str "fb")) none none)) 10 ⟨['.']⟩ [] .All
      ⟨.mk (.Property .Track) none none, by simp, by
        simp [Song.as_line_ellipsized, Song.format, songEmpty]⟩,
   C2_styled_group_fallback_amended.2 [.mk (.Property (.Song .Track)) none none] none none
      (some songEmpty) ctx0 [] .All
      ⟨.mk (.Property (.Song .Track)) none none, by simp, by
        simp [Property.as_span, Song.format, songEmpty]⟩⟩

/-- Counterexample to C2 as stated: a group whose only member fails, with
a group default that itself resolves, yields `None` through `as_span` —
the default's styled result is not returned, so styled group resolution
does yield `None` while the group carries a resolvable default. -/
theorem C2_as_span_group_counterexample :
    (Property.mk (.Group [.mk (.Property (.Song .Track)) none none]) none
        (some (.mk (.Text (str "fallback")) none none))).as_span
        (some songEmpty) ctx0 [] .All = none ∧
    (Property.mk (.Text (str "fallback")) none none).as_span
        (some songEmpty) ctx0 [] .All
      = some (.inl { content := str "fallback", style := {} }) := by
  constructor
  · simp [Property.as_span, Property.group_spans, Song.format, songEmpty]
  · simp [Property.as_span]

/-- The three-way `Nat` comparison is reflexively `eq`. -/
theorem cmpN_self (a : Nat) : cmpN a a = .eq := by simp [cmpN]

/-- The three-way `Nat` comparison is antisymmetric under `swap`. -/
theorem cmpN_swap (a b : Nat) : cmpN a b = (cmpN b a).swap := by
  unfold cmpN
  rcases Nat.lt_trichotomy a b with h | h | h
  · rw [if_pos h, if_neg (by omega), if_neg (by omega)]; rfl
  · rw [if_neg (by omega), if_pos h, if_neg (by omega), if_pos h.symm]; rfl
  · rw [if_neg (by omega), if_neg (by omega), if_pos h]; rfl

/-- `lt` outcome of the three-way `Nat` comparison. -/
theorem cmpN_eq_lt (a b : Nat) : cmpN a b = .lt ↔ a < b := by
  unfold cmpN
  split_ifs <;> simp_all

/-- `eq` outcome of the three-way `Nat` comparison. -/
theorem cmpN_eq_eq (a b : Nat) : cmpN a b = .eq ↔ a = b := by
  unfold cmpN
  split_ifs <;> simp_all <;> omega

/-- Strict transitivity of the three-way `Nat` comparison. -/
theorem cmpN_lt_trans (a b c : Nat) (h1 : cmpN a b = .lt) (h2 : cmpN b c = .lt) :
    cmpN a c = .lt := by
  rw [cmpN_eq_lt] at *
  omega

/-- The three-way `Int` comparison is reflexively `eq`. -/
theorem cmpZ_self (a : Int) : cmpZ a a = .eq := by simp [cmpZ]

/-- The three-way `Int` comparison is antisymmetric under `swap`. -/
theorem cmpZ_swap (a b : Int) : cmpZ a b = (cmpZ b a).swap := by
  unfold cmpZ
  rcases lt_trichotomy a b with h | h | h
  · rw [if_pos h, if_neg (by omega), if_neg (by omega)]; rfl
  · rw [if_neg (by omega), if_pos h, if_neg (by omega), if_pos h.symm]; rfl
  · rw [if_neg (by omega), if_neg (by omega), if_pos h]; rfl

/-- Character comparison is antisymmetric under `swap`. -/
theorem charCmp_swap (a b : Char) : charCmp a b = (charCmp b a).swap := cmpN_swap _ _

/-- `eq` outcome of character comparison is equality. -/
theorem charCmp_eq_eq (a b : Char) : charCmp a b = .eq ↔ a = b := by
  unfold charCmp
  rw [cmpN_eq_eq]
  constructor
  · intro h
    have h2 := congrArg Char.ofNat h
    rwa [Char.ofNat_toNat, Char.ofNat_toNat] at h2
  · intro h
    rw [h]

/-- Strict transitivity of character comparison. -/
theorem charCmp_lt_trans (a b c : Char) (h1 : charCmp a b = .lt) (h2 : charCmp b c = .lt) :
    charCmp a c = .lt := cmpN_lt_trans _ _ _ h1 h2

/-- Lexicographic comparison is reflexively `eq`. -/
theorem lexCmp_self (s : Str) : lexCmp s s = .eq := by
  induction s with
  | nil => rfl
  | cons a xs ih => simp [lexCmp, charCmp, cmpN_self, ih]

/-- Lexicographic comparison is antisymmetric under `swap`. -/
theorem lexCmp_swap (s : Str) : ∀ t, lexCmp s t = (lexCmp t s).swap := by
  induction s with
  | nil => intro t; cases t <;> rfl
  | cons a xs ih =>
    intro t
    cases t with
    | nil => rfl
    | cons b ys =>
      simp only [lexCmp]
      rw [charCmp_swap a b]
      cases charCmp b a <;> simp [ih ys, Ordering.swap]

/-- Strict transitivity of lexicographic comparison. -/
theorem lexCmp_lt_trans (s : Str) : ∀ t u, lexCmp s t = .lt → lexCmp t u = .lt →
    lexCmp s u = .lt := by
  induction s with
  | nil =>
    intro t u h1 h2
    cases u with
    | nil =>
      cases t with
      | nil => simp [lexCmp] at h1
      | cons b ys => simp [lexCmp] at h2
    | cons c zs => rfl
  | cons a xs ih =>
    intro t u h1 h2
    cases t with
    | nil => simp [lexCmp] at h1
    | cons b ys =>
      cases u with
      | nil => simp [lexCmp] at h2
      | cons c zs =>
        simp only [lexCmp] at h1 h2 ⊢
        cases hab : charCmp a b with
        | lt =>
          cases hbc : charCmp b c with
          | lt => simp [charCmp_lt_trans a b c hab hbc]
          | eq =>
            have : b = c := (charCmp_eq_eq b c).mp hbc
            subst this
            simp [hab]
          | gt => rw [hbc] at h2; exact absurd h2 (by simp)
        | eq =>
          have : a = b := (charCmp_eq_eq a b).mp hab
          subst this
          rw [hab] at h1
          cases hbc : charCmp a c with
          | lt => simp
          | eq =>
            have : a = c := (charCmp_eq_eq a c).mp hbc
            subst this
            rw [hbc] at h2
            simp at h1 h2 ⊢
            exact ih _ _ h1 h2
          | gt =>
            have : a = c → False := fun hc => by simp [hc, charCmp, cmpN_self] at hbc
            rw [hbc] at h2
            simp at h2
        | gt => rw [hab] at h1; exact absurd h1 (by simp)

/-- Case-insensitive comparison is reflexively `eq`. -/
theorem uniCaseCmp_self (a : Str) : uniCaseCmp a a = .eq := lexCmp_self _

/-- Case-insensitive comparison is antisymmetric under `swap`. -/
theorem uniCaseCmp_swap (a b : Str) : uniCaseCmp a b = (uniCaseCmp b a).swap :=
  lexCmp_swap _ _

/-- Strict transitivity of case-insensitive comparison. -/
theorem uniCaseCmp_lt_trans (a b c : Str) (h1 : uniCaseCmp a b = .lt)
    (h2 : uniCaseCmp b c = .lt) : uniCaseCmp a c = .lt :=
  lexCmp_lt_trans _ _ _ h1 h2

/-- The present/absent comparison block is reflexively `eq` when the
inner comparison is. -/
theorem optCmp_self {α : Type} {cmp : α → α → Ordering} (h : ∀ x, cmp x x = .eq) :
    ∀ o, optCmp cmp o o = .eq
  | none => rfl
  | some x => h x

/-- The present/absent comparison block is antisymmetric under `swap`
when the inner comparison is. -/
theorem optCmp_swap {α : Type} {cmp : α → α → Ordering}
    (h : ∀ x y, cmp x y = (cmp y x).swap) :
    ∀ o1 o2, optCmp cmp o1 o2 = (optCmp cmp o2 o1).swap := by
  intro o1 o2
  cases o1 with
  | none => cases o2 <;> rfl
  | some x =>
    cases o2 with
    | none => rfl
    | some y => exact h x y

/-- The present/absent comparison block is strictly transitive when the
inner comparison is. -/
theorem optCmp_lt_trans {α : Type} {cmp : α → α → Ordering}
    (h : ∀ x y z, cmp x y = .lt → cmp y z = .lt → cmp x z = .lt) :
    ∀ o1 o2 o3, optCmp cmp o1 o2 = .lt → optCmp cmp o2 o3 = .lt →
      optCmp cmp o1 o3 = .lt := by
  intro o1 o2 o3 h1 h2
  cases o1 with
  | none =>
    cases o2 with
    | none => simp [optCmp] at h1
    | some y => simp [optCmp] at h1
  | some x =>
    cases o2 with
    | none =>
      cases o3 with
      | none => simp [optCmp] at h2
      | some z => simp [optCmp] at h2
    | some y =>
      cases o3 with
      | none => simp [optCmp]
      | some z =>
        simp only [optCmp] at h1 h2 ⊢
        exact h x y z h1 h2

/-- The numeric-then-text comparison is reflexively `eq`. -/
theorem numericTextCmp_self (x : Str) : numericTextCmp x x = .eq := by
  unfold numericTextCmp
  cases hx : parseI32 x <;> simp [cmpZ_self, uniCaseCmp_self]

/-- The numeric-then-text comparison is antisymmetric under `swap`. -/
theorem numericTextCmp_swap (x y : Str) : numericTextCmp x y = (numericTextCmp y x).swap := by
  unfold numericTextCmp
  cases hx : parseI32 x <;> cases hy : parseI32 y <;>
    first
      | exact uniCaseCmp_swap x y
      | exact cmpZ_swap _ _

/-- Every non-duration arm of `Song::cmp_by_prop` is the present/absent
block over the arm's string key with the arm's base comparison. -/
theorem cmp_by_prop_eq_optCmp (a b : Song) (p : SongProperty) (hp : p ≠ .Duration) :
    Song.cmp_by_prop a b p = optCmp p.baseCmp (a.sortKey p) (b.sortKey p) := by
  cases p with
  | Duration => exact absurd rfl hp
  | File => rfl
  | _ => rfl

/-- `Song::cmp_by_prop` is antisymmetric under `swap` for every
property. -/
theorem cmp_by_prop_swap (a b : Song) (p : SongProperty) :
    Song.cmp_by_prop a b p = (Song.cmp_by_prop b a p).swap := by
  cases p <;>
    simp only [Song.cmp_by_prop] <;>
    first
      | exact optCmp_swap uniCaseCmp_swap _ _
      | exact optCmp_swap numericTextCmp_swap _ _
      | exact optCmp_swap cmpN_swap _ _
      | exact uniCaseCmp_swap _ _

/-- `Song::cmp_by_prop` compares every song equal to itself. -/
theorem cmp_by_prop_self (a : Song) (p : SongProperty) :
    Song.cmp_by_prop a a p = .eq := by
  cases p <;>
    simp only [Song.cmp_by_prop] <;>
    first
      | exact optCmp_self uniCaseCmp_self _
      | exact optCmp_self numericTextCmp_self _
      | exact optCmp_self cmpN_self _
      | exact uniCaseCmp_self _

/-- Strict transitivity of `Song::cmp_by_prop` away from the `Track` and
`Disc` kinds. -/
theorem cmp_by_prop_lt_trans (p : SongProperty) (hpt : p ≠ .Track) (hpd : p ≠ .Disc)
    (a b c : Song) (h1 : Song.cmp_by_prop a b p = .lt)
    (h2 : Song.cmp_by_prop b c p = .lt) : Song.cmp_by_prop a c p = .lt := by
  cases p with
  | Track => exact absurd rfl hpt
  | Disc => exact absurd rfl hpd
  | File =>
    simp only [Song.cmp_by_prop] at h1 h2 ⊢
    exact uniCaseCmp_lt_trans _ _ _ h1 h2
  | Duration =>
    simp only [Song.cmp_by_prop] at h1 h2 ⊢
    exact optCmp_lt_trans cmpN_lt_trans _ _ _ h1 h2
  | _ =>
    simp only [Song.cmp_by_prop] at h1 h2 ⊢
    exact optCmp_lt_trans uniCaseCmp_lt_trans _ _ _ h1 h2

/-- An absent value sorts strictly after a present one in the
present/absent block. -/
theorem optCmp_absent_gt {α : Type} {cmp : α → α → Ordering} (o1 o2 : Option α)
    (h1 : o1.isSome = false) (h2 : o2.isSome = true) : optCmp cmp o1 o2 = .gt := by
  cases o1 <;> cases o2 <;> simp_all [optCmp]

/-- Two absent values compare equal in the present/absent block. -/
theorem optCmp_absent_eq {α : Type} {cmp : α → α → Ordering} (o1 o2 : Option α)
    (h1 : o1.isSome = false) (h2 : o2.isSome = false) : optCmp cmp o1 o2 = .eq := by
  cases o1 <;> cases o2 <;> simp_all [optCmp]

/-- A song lacking the field sorts strictly after one having it. -/
theorem cmp_by_prop_absent_gt (a b : Song) (p : SongProperty)
    (ha : a.hasProp p = false) (hb : b.hasProp p = true) :
    Song.cmp_by_prop a b p = .gt := by
  cases p with
  | Duration =>
    simp only [Song.cmp_by_prop]
    exact optCmp_absent_gt _ _ ha hb
  | _ =>
    rw [cmp_by_prop_eq_optCmp a b _ (by intro hc; cases hc)]
    exact optCmp_absent_gt _ _ ha hb

/-- Two songs both lacking the field compare equal. -/
theorem cmp_by_prop_absent_eq (a b : Song) (p : SongProperty)
    (ha : a.hasProp p = false) (hb : b.hasProp p = false) :
    Song.cmp_by_prop a b p = .eq := by
  cases p with
  | Duration =>
    simp only [Song.cmp_by_prop]
    exact optCmp_absent_eq _ _ ha hb
  | _ =>
    rw [cmp_by_prop_eq_optCmp a b _ (by intro hc; cases hc)]
    exact optCmp_absent_eq _ _ ha hb

/-- C6 (amended): `cmp_by_prop` behaves per pair exactly as described —
each non-duration kind is the present/absent block over the kind's
extracted string key with its base comparison (case-insensitive text, or
numeric-with-text-fallback for track and disc), duration compares
numerically on milliseconds, the side lacking the field sorts strictly
greater and two absent sides compare equal — and the comparison is
reflexively `eq` and antisymmetric under `swap` for every kind, and
strictly transitive for every kind except `Track` and `Disc`, where
mixing parseable and unparsable values breaks transitivity, so there the
comparator is not consistent with any total order. -/
theorem C6_cmp_by_prop_amended (p : SongProperty) :
    (∀ a b : Song, Song.cmp_by_prop a b p = (Song.cmp_by_prop b a p).swap) ∧
    (∀ a : Song, Song.cmp_by_prop a a p = .eq) ∧
    (p ≠ .Duration → ∀ a b : Song,
      Song.cmp_by_prop a b p = optCmp p.baseCmp (a.sortKey p) (b.sortKey p)) ∧
    (∀ a b : Song, Song.cmp_by_prop a b .Duration = optCmp cmpN a.duration b.duration) ∧
    (∀ a b : Song, a.hasProp p = false → b.hasProp p = true →
      Song.cmp_by_prop a b p = .gt) ∧
    (∀ a b : Song, a.hasProp p = false → b.hasProp p = false →
      Song.cmp_by_prop a b p = .eq) ∧
    (p ≠ .Track → p ≠ .Disc → ∀ a b c : Song,
      Song.cmp_by_prop a b p = .lt → Song.cmp_by_prop b c p = .lt →
      Song.cmp_by_prop a c p = .lt) :=
  ⟨fun a b => cmp_by_prop_swap a b p,
   fun a => cmp_by_prop_self a p,
   fun hp a b => cmp_by_prop_eq_optCmp a b p hp,
   fun _ _ => rfl,
   fun a b => cmp_by_prop_absent_gt a b p,
   fun a b => cmp_by_prop_absent_eq a b p,
   fun hpt hpd a b c => cmp_by_prop_lt_trans p hpt hpd a b c⟩

/-- Witness for C6 at concrete songs: a titleless song sorts after a
titled one and equal to another titleless one; the title comparison is
the present/absent block over the joined title; duration comparison is
transitive at 1 ms, 2 ms, 3 ms. -/
theorem C6_cmp_by_prop_witness :
    Song.cmp_by_prop songEmpty songTitle .Title = .gt ∧
    Song.cmp_by_prop songEmpty songTitle .Track = .eq ∧
    Song.cmp_by_prop songT10 songT9 .Title
      = optCmp (SongProperty.baseCmp .Title) (songT10.sortKey .Title)
          (songT9.sortKey .Title) ∧
    Song.cmp_by_prop (⟨str "x", some 1, fun _ => none, none⟩ : Song)
      (⟨str "z", some 3, fun _ => none, none⟩ : Song) .Duration = .lt :=
  ⟨(C6_cmp_by_prop_amended .Title).2.2.2.2.1 songEmpty songTitle (by decide) (by decide),
   (C6_cmp_by_prop_amended .Track).2.2.2.2.2.1 songEmpty songTitle (by decide) (by decide),
   (C6_cmp_by_prop_amended .Title).2.2.1 (by decide) songT10 songT9,
   (C6_cmp_by_prop_amended .Duration).2.2.2.2.2.2 (by decide) (by decide)
     (⟨str "x", some 1, fun _ => none, none⟩ : Song)
     (⟨str "y", some 2, fun _ => none, none⟩ : Song)
     (⟨str "z", some 3, fun _ => none, none⟩ : Song) (by decide) (by decide)⟩

/-- Counterexample to C6 as stated: with track tags `"10"`, `"9"` and
`"5a"`, the comparator orders `10 < 5a` and `5a < 9` by case-insensitive
text (one side fails to parse), yet `10 > 9` numerically — strict
transitivity fails, so the track comparator is consistent with no total
order. -/
theorem C6_cmp_by_prop_counterexample :
    Song.cmp_by_prop songT10 songT5a .Track = .lt ∧
    Song.cmp_by_prop songT5a songT9 .Track = .lt ∧
    Song.cmp_by_prop songT10 songT9 .Track = .gt := by decide

/-- Sequential event processing splits over append: the second part runs
only if the first finished without error. -/
theorem runEvents_append {T E : Type}
    (pane_callback : ConfigPane → Rect → Borders → Rect → T → Except E T)
    (split_callback : Borders → Rect → T → Except E T) :
    ∀ (es1 es2 : List PaneEvent) (t : T),
      runEvents pane_callback split_callback (es1 ++ es2) t
        = (match runEvents pane_callback split_callback es1 t with
          | .ok t2 => runEvents pane_callback split_callback es2 t2
          | .error e => .error e) := by
  intro es1
  induction es1 with
  | nil => intro es2 t; rfl
  | cons e es ih =>
    intro es2 t
    simp only [List.cons_append, runEvents]
    cases applyEvent pane_callback split_callback t e with
    | ok t2 => exact ih es2 t2
    | error err => rfl

/-- The stack loop of `for_each_pane_custom_data` is exactly sequential
processing of its visit-event sequence: each callback runs in visit
order on the threaded state, and the first error stops everything. -/
theorem forEachAux_eq_runEvents {T E : Type}
    (pane_callback : ConfigPane → Rect → Borders → Rect → T → Except E T)
    (split_callback : Borders → Rect → T → Except E T) :
    ∀ (stack : List (SizedPaneOrSplit × Rect)) (t : T),
      forEachPaneCustomDataAux pane_callback split_callback stack t
        = runEvents pane_callback split_callback (visitEventsStack stack) t := by
  intro stack
  induction stack using visitEventsStack.induct with
  | case1 => intro t; simp [forEachPaneCustomDataAux, visitEventsStack, runEvents]
  | case2 area stack pane ih =>
    intro t
    simp only [forEachPaneCustomDataAux, visitEventsStack, runEvents, applyEvent]
    cases pane_callback pane (blockInner pane.borders area) pane.borders area t with
    | ok t2 => exact ih t2
    | error e => rfl
  | case3 area stack direction borders panes ih =>
    intro t
    simp only [forEachPaneCustomDataAux, visitEventsStack, runEvents, applyEvent]
    cases split_callback borders area t with
    | ok t2 => exact ih t2
    | error e => rfl

/-- The visit sequence of a concatenated stack is the concatenation of
the visit sequences. -/
theorem visitEventsStack_append :
    ∀ (s1 s2 : List (SizedPaneOrSplit × Rect)),
      visitEventsStack (s1 ++ s2) = visitEventsStack s1 ++ visitEventsStack s2 := by
  intro s1
  induction s1 using visitEventsStack.induct with
  | case1 => intro s2; simp [visitEventsStack]
  | case2 area stack pane ih =>
    intro s2
    simp only [List.cons_append, visitEventsStack, List.append_assoc]
    rw [ih]
  | case3 area stack direction borders panes ih =>
    intro s2
    simp only [List.cons_append, visitEventsStack, List.append_assoc]
    rw [← List.append_assoc, ih]

/-- The visit sequence of a stack is the flattened list of each entry's
own visit sequence. -/
theorem visitEventsStack_eq_flatten :
    ∀ (stack : List (SizedPaneOrSplit × Rect)),
      visitEventsStack stack = (stack.map (fun x => visitEvents x.1 x.2)).flatten := by
  intro stack
  induction stack with
  | nil => simp [visitEventsStack]
  | cons x rest ih =>
    obtain ⟨node, area⟩ := x
    have h := visitEventsStack_append [(node, area)] rest
    simp only [List.singleton_append] at h
    rw [h, ih]
    simp [visitEvents]

/-- The allocator returns one sub-rectangle per constraint. -/
theorem layoutSplitAux_length (direction : Direction) (area : Rect) :
    ∀ (cs : List Constraint) (offset : Nat),
      (layoutSplitAux direction area cs offset).length = cs.length := by
  intro cs
  induction cs with
  | nil => intro offset; rfl
  | cons c rest ih => intro offset; simp [layoutSplitAux, ih]

/-- Mapping the second component over a zip recovers the second list when
it is no longer than the first. -/
theorem zip_map_snd {α β : Type} :
    ∀ (l1 : List α) (l2 : List β), l2.length ≤ l1.length →
      (l1.zip l2).map (fun pa => pa.2) = l2 := by
  intro l1
  induction l1 with
  | nil =>
    intro l2 h
    cases l2 with
    | nil => rfl
    | cons b bs => simp at h
  | cons a as ih =>
    intro l2 h
    cases l2 with
    | nil => rfl
    | cons b bs => simp [List.zip_cons_cons, ih bs (by simpa using h)]

/-- The children a split pushes are exactly its declared children, in
declared order, each paired with some rectangle. -/
theorem splitChildren_map_fst (direction : Direction) (borders : Borders)
    (panes : List SizedSubPane) (area : Rect) :
    (splitChildren direction borders panes area).map (fun pa => pa.1)
      = panes.map SizedSubPane.pane := by
  unfold splitChildren
  rw [List.map_map]
  have hlen : (panes.map SizedSubPane.pane).length
      ≤ (layoutSplit direction
          (panes.map (fun pane => pane.size.into_constraint
            (match direction with
              | .Horizontal => area.height
              | .Vertical => area.width))) (blockInner borders area)).length := by
    rw [layoutSplit, layoutSplitAux_length]
    simp
  exact zip_map_snd _ _ hlen

/-- `filterMap` distributes over `flatten`. -/
theorem flatten_filterMap {α β : Type} (f : α → Option β) :
    ∀ (l : List (List α)), (l.flatten).filterMap f = (l.map (fun x => x.filterMap f)).flatten := by
  intro l
  induction l with
  | nil => rfl
  | cons x rest ih => simp [List.filterMap_append, ih]

/-- Declared-order leaves of a children list, via the children's
subtrees. -/
theorem panesInOrderList_eq :
    ∀ (panes : List SizedSubPane),
      ((panes.map SizedSubPane.pane).map panesInOrder).flatten = panesInOrderList panes := by
  intro panes
  induction panes with
  | nil => rfl
  | cons p rest ih =>
    obtain ⟨size, pane⟩ := p
    simp only [List.map_cons, List.flatten_cons, panesInOrderList, SizedSubPane.pane, ih]

/-- Total node count of a children list, via the children's subtrees. -/
theorem nodeCountList_eq :
    ∀ (panes : List SizedSubPane),
      ((panes.map SizedSubPane.pane).map nodeCount).sum = nodeCountList panes := by
  intro panes
  induction panes with
  | nil => rfl
  | cons p rest ih =>
    obtain ⟨size, pane⟩ := p
    simp only [List.map_cons, List.sum_cons, nodeCountList, SizedSubPane.pane, ih]

/-- The leaves the stack loop visits are a permutation of the stacked
subtrees' declared-order leaves: every leaf exactly once. -/
theorem visitPanes_stack_perm :
    ∀ (stack : List (SizedPaneOrSplit × Rect)),
      ((visitEventsStack stack).filterMap paneOf).Perm
        ((stack.map (fun x => panesInOrder x.1)).flatten) := by
  intro stack
  induction stack using visitEventsStack.induct with
  | case1 => simp [visitEventsStack]
  | case2 area stack pane ih =>
    simp only [visitEventsStack, List.filterMap_cons, paneOf, List.map_cons,
      List.flatten_cons, panesInOrder, List.singleton_append]
    exact ih.cons pane
  | case3 area stack direction borders panes ih =>
    simp only [visitEventsStack, List.filterMap_cons, paneOf, List.map_cons,
      List.flatten_cons, panesInOrder]
    have hB : ((splitChildren direction borders panes area).map
        (fun x => panesInOrder x.1)).flatten = panesInOrderList panes := by
      have h1 : (splitChildren direction borders panes area).map (fun x => panesInOrder x.1)
          = ((splitChildren direction borders panes area).map (fun pa => pa.1)).map
              panesInOrder := by
        rw [List.map_map]; rfl
      rw [h1, splitChildren_map_fst, panesInOrderList_eq]
    have hA : (((splitChildren direction borders panes area).reverse).map
        (fun x => panesInOrder x.1)).flatten.Perm (panesInOrderList panes) := by
      rw [← hB]
      exact ((splitChildren direction borders panes area).reverse_perm.map _).join
    refine ih.trans ?_
    rw [List.map_append, List.flatten_append]
    exact hA.append_right _

/-- The stack loop performs exactly one callback invocation per node of
every stacked subtree. -/
theorem visitEventsStack_length :
    ∀ (stack : List (SizedPaneOrSplit × Rect)),
      (visitEventsStack stack).length = (stack.map (fun x => nodeCount x.1)).sum := by
  intro stack
  induction stack using visitEventsStack.induct with
  | case1 => simp [visitEventsStack]
  | case2 area stack pane ih =>
    simp [visitEventsStack, nodeCount, ih]
    omega
  | case3 area stack direction borders panes ih =>
    simp only [visitEventsStack, List.length_cons, ih, List.map_append, List.sum_append,
      List.map_cons, List.sum_cons]
    have h1 : ((splitChildren direction borders panes area).reverse.map
        (fun x => nodeCount x.1)).sum = nodeCountList panes := by
      have h2 : (splitChildren direction borders panes area).reverse.map
          (fun x => nodeCount x.1)
          = (((splitChildren direction borders panes area).reverse).map (fun pa => pa.1)).map
              nodeCount := by
        rw [List.map_map]; rfl
      rw [h2, List.map_reverse, splitChildren_map_fst]
      simp only [List.map_reverse, List.sum_reverse, nodeCountList_eq]
    rw [h1]
    simp only [nodeCount]
    omega

/-- Sequential processing with the leaf-logging callbacks never fails and
appends exactly the visited leaves. -/
theorem runEvents_log :
    ∀ (es : List PaneEvent) (acc : List ConfigPane),
      runEvents pcbLogPane scbOk es acc = .ok (acc ++ es.filterMap paneOf) := by
  intro es
  induction es with
  | nil => intro acc; simp [runEvents]
  | cons e rest ih =>
    intro acc
    cases e with
    | paneEv pane pane_area block area =>
      simp only [runEvents, applyEvent, pcbLogPane, List.filterMap_cons, paneOf]
      rw [ih]
      simp
    | splitEv block area =>
      simp only [runEvents, applyEvent, scbOk, List.filterMap_cons, paneOf]
      rw [ih]

/-- C4: the traversal propagates callback errors exactly.  Processing the
visit sequence without error makes `for_each_pane_custom_data` return
that `Ok`; and whenever the visit sequence splits as `es1 ++ ev :: es2`
with `es1` succeeding and `ev`'s callback failing, the traversal returns
precisely that error — whatever `es2` still held, so no callback after
the first failure is ever consulted. -/
theorem C4_error_propagation {T E : Type} (tree : SizedPaneOrSplit) (area : Rect) (t : T)
    (pane_callback : ConfigPane → Rect → Borders → Rect → T → Except E T)
    (split_callback : Borders → Rect → T → Except E T) :
    (∀ t2, runEvents pane_callback split_callback (visitEvents tree area) t = .ok t2 →
      tree.for_each_pane_custom_data area t pane_callback split_callback = .ok t2) ∧
    (∀ es1 ev es2 e t1, visitEvents tree area = es1 ++ ev :: es2 →
      runEvents pane_callback split_callback es1 t = .ok t1 →
      applyEvent pane_callback split_callback t1 ev = .error e →
      tree.for_each_pane_custom_data area t pane_callback split_callback = .error e) := by
  constructor
  · intro t2 h
    rw [SizedPaneOrSplit.for_each_pane_custom_data, forEachAux_eq_runEvents]
    exact h
  · intro es1 ev es2 e t1 hsplit h1 h2
    rw [SizedPaneOrSplit.for_each_pane_custom_data, forEachAux_eq_runEvents]
    show runEvents pane_callback split_callback (visitEvents tree area) t = .error e
    rw [hsplit, runEvents_append pane_callback split_callback es1 (ev :: es2) t, h1]
    show runEvents pane_callback split_callback (ev :: es2) t1 = .error e
    simp only [runEvents, h2]

/-- Witness for C4 at a concrete layout: on the two-leaf split the
failing callback's error 7 (raised at the first visited leaf, the second
declared one) is returned, and with non-failing logging callbacks the
traversal returns `Ok` with both leaves logged. -/
theorem C4_error_propagation_witness :
    tree4.for_each_pane_custom_data area0 (0 : Nat) pcbErr scbOk = .error 7 ∧
    tree4.for_each_pane_custom_data area0 ([] : List PaneType) pcbLog scbOk
      = .ok [PaneType.Directories, PaneType.Queue] :=
  ⟨(C4_error_propagation tree4 area0 0 pcbErr scbOk).2
      [.splitEv b0 area0]
      (.paneEv paneD ⟨50, 0, 50, 10⟩ b0 ⟨50, 0, 50, 10⟩)
      [.paneEv paneQ ⟨0, 0, 50, 10⟩ b0 ⟨0, 0, 50, 10⟩]
      7 0
      (by simp [visitEvents, visitEventsStack, splitChildren, layoutSplit, layoutSplitAux,
        blockInner, constraintExtent, PaneSize.into_constraint, tree4, area0, paneQ, paneD,
        b0, SizedSubPane.size, SizedSubPane.pane])
      (by simp [runEvents, applyEvent, scbOk])
      (by simp [applyEvent, pcbErr, paneD]),
   (C4_error_propagation tree4 area0 [] pcbLog scbOk).1
      [PaneType.Directories, PaneType.Queue]
      (by simp [visitEvents, visitEventsStack, splitChildren, layoutSplit, layoutSplitAux,
        blockInner, constraintExtent, PaneSize.into_constraint, tree4, area0, paneQ, paneD,
        b0, SizedSubPane.size, SizedSubPane.pane, runEvents, applyEvent, pcbLog, scbOk])⟩

/-- C3 (amended): the traversal visits every node exactly once — the
logging run returns `Ok` with exactly the visit sequence's leaves, that
leaf sequence is a permutation of the declared-order leaves, and the
callback count equals the node count — but the visit order at each split
is the reverse of declaration order: the loop pops the last-pushed child
first, so a split's children are traversed last-declared-first, not
left-to-right. -/
theorem C3_traversal_order_amended (tree : SizedPaneOrSplit) (area : Rect) :
    (tree.for_each_pane_custom_data area ([] : List ConfigPane) pcbLogPane scbOk
      = .ok (visitPanes tree area)) ∧
    ((visitPanes tree area).Perm (panesInOrder tree)) ∧
    ((visitEvents tree area).length = nodeCount tree) ∧
    (∀ direction borders panes,
      visitPanes (.Split direction borders panes) area
        = ((splitChildren direction borders panes area).reverse.map
            (fun pa => visitPanes pa.1 pa.2)).flatten) := by
  refine ⟨?_, ?_, ?_, ?_⟩
  · rw [SizedPaneOrSplit.for_each_pane_custom_data, forEachAux_eq_runEvents, runEvents_log]
    simp [visitPanes, visitEvents]
  · have h := visitPanes_stack_perm [(tree, area)]
    simpa [visitPanes, visitEvents] using h
  · have h := visitEventsStack_length [(tree, area)]
    simpa [visitEvents] using h
  · intro direction borders panes
    simp only [visitPanes, visitEvents]
    rw [show visitEventsStack [(SizedPaneOrSplit.Split direction borders panes, area)]
        = PaneEvent.splitEv borders area ::
          visitEventsStack ((splitChildren direction borders panes area).reverse ++ []) from by
      simp [visitEventsStack]]
    rw [List.append_nil, List.filterMap_cons]
    simp only [paneOf]
    rw [visitEventsStack_eq_flatten, flatten_filterMap, List.map_map]
    rfl

/-- Counterexample to C3 as stated: on a horizontal split declaring the
queue pane first and the directories pane second, the traversal logs the
directories pane first — the declared order is queue-then-directories,
and the two orders differ. -/
theorem C3_traversal_order_counterexample :
    tree4.for_each_pane_custom_data area0 ([] : List ConfigPane) pcbLogPane scbOk
      = .ok [paneD, paneQ] ∧
    panesInOrder tree4 = [paneQ, paneD] ∧
    ([paneD, paneQ] : List ConfigPane) ≠ [paneQ, paneD] := by
  refine ⟨?_, ?_, ?_⟩
  · rw [SizedPaneOrSplit.for_each_pane_custom_data, forEachAux_eq_runEvents, runEvents_log]
    simp [visitEventsStack, splitChildren, layoutSplit, layoutSplitAux, blockInner,
      constraintExtent, PaneSize.into_constraint, tree4, area0, paneQ, paneD, b0,
      SizedSubPane.size, SizedSubPane.pane, paneOf]
  · simp [panesInOrder, panesInOrderList, tree4, SizedSubPane.pane]
  · simp [paneQ, paneD]
